import Mathlib

/-!
Verification of the 3-body-problem simulation core.

The JavaScript source (`js/core/PhysicsEngine.js` and the `MathUtils`
library) is shallowly embedded here.  Machine floating-point numbers are
modelled as exact rationals; `Math.sqrt` is modelled by `ratSqrt`, which
agrees with the true square root on every perfect-square rational (all
square roots taken at concrete inputs in this development are of perfect
squares).  JavaScript object identity for bodies stored in the spatial
hash is modelled by the body's index in the engine's body list.  The
dynamically-typed behaviour of `rk4Step` when it is handed a flat array
(as `updateRK4` does) is modelled separately by a small JavaScript value
semantics (`JVal`/`JState`).
-/

namespace ThreeBody

/-- A 3-component vector `{x, y, z}` of exact rationals. -/
structure Vec3 where
  x : ℚ
  y : ℚ
  z : ℚ
deriving DecidableEq

/-- Model of `Math.sqrt` on exact rationals: the integer square root of the
numerator over the integer square root of the denominator.  It coincides
with the true square root whenever the argument is a perfect-square
rational, which is the case at every concrete input evaluated in this
development; the symbolic theorems below never depend on its value at
other inputs. -/
def ratSqrt (q : ℚ) : ℚ := (Nat.sqrt q.num.toNat : ℚ) / (Nat.sqrt q.den : ℚ)

namespace MathUtils

/-- Source `MathUtils.add(v1, v2)`: componentwise vector sum.  The function
is binary; the one call site that passes it a third argument (inside
`rk4Step`) has that third argument silently discarded, exactly as in
JavaScript. -/
def add (v1 v2 : Vec3) : Vec3 := ⟨v1.x + v2.x, v1.y + v2.y, v1.z + v2.z⟩

/-- Source `MathUtils.subtract(v1, v2)`. -/
def subtract (v1 v2 : Vec3) : Vec3 := ⟨v1.x - v2.x, v1.y - v2.y, v1.z - v2.z⟩

/-- Source `MathUtils.multiply(v, scalar)`. -/
def multiply (v : Vec3) (scalar : ℚ) : Vec3 := ⟨v.x * scalar, v.y * scalar, v.z * scalar⟩

/-- Source `MathUtils.divide(v, scalar)`: componentwise division (total on
ℚ; the source divides by zero only if the caller violates its contract). -/
def divide (v : Vec3) (scalar : ℚ) : Vec3 := ⟨v.x / scalar, v.y / scalar, v.z / scalar⟩

/-- Source `MathUtils.magnitude(v) = Math.sqrt(x·x + y·y + z·z)`. -/
def magnitude (v : Vec3) : ℚ := ratSqrt (v.x * v.x + v.y * v.y + v.z * v.z)

/-- Source `MathUtils.normalize(v)`: the zero vector when the magnitude is
exactly 0, otherwise `v` divided by its magnitude. -/
def normalize (v : Vec3) : Vec3 :=
  let mag := magnitude v
  if mag = 0 then ⟨0, 0, 0⟩ else divide v mag

/-- Source `MathUtils.dot(v1, v2)`. -/
def dot (v1 v2 : Vec3) : ℚ := v1.x * v2.x + v1.y * v2.y + v1.z * v2.z

/-- Source `MathUtils.cross(v1, v2)`. -/
def cross (v1 v2 : Vec3) : Vec3 :=
  ⟨v1.y * v2.z - v1.z * v2.y, v1.z * v2.x - v1.x * v2.z, v1.x * v2.y - v1.y * v2.x⟩

/-- Source `MathUtils.distance(v1, v2) = Math.sqrt(dx·dx + dy·dy + dz·dz)`. -/
def distance (v1 v2 : Vec3) : ℚ :=
  ratSqrt ((v1.x - v2.x) * (v1.x - v2.x) + (v1.y - v2.y) * (v1.y - v2.y) +
    (v1.z - v2.z) * (v1.z - v2.z))

/-- Source `MathUtils.distanceSquared(v1, v2)`. -/
def distanceSquared (v1 v2 : Vec3) : ℚ :=
  (v1.x - v2.x) * (v1.x - v2.x) + (v1.y - v2.y) * (v1.y - v2.y) +
    (v1.z - v2.z) * (v1.z - v2.z)

/-- Source `MathUtils.G = 6.67430e-11`, as an exact rational. -/
def G : ℚ := 667430 / 10 ^ 16

/-- Source `MathUtils.kineticEnergy(mass, velocity) = 0.5·m·speed²` where
`speed = magnitude(velocity)`. -/
def kineticEnergy (mass : ℚ) (velocity : Vec3) : ℚ :=
  let speed := magnitude velocity
  (1 / 2) * mass * speed * speed

/-- Source `MathUtils.gravitationalPotentialEnergy(m1, m2, r1, r2)`:
`-G·m1·m2/d`, with a zero result guarding the `d = 0` case. -/
def gravitationalPotentialEnergy (m1 m2 : ℚ) (r1 r2 : Vec3) : ℚ :=
  let d := distance r1 r2
  if d = 0 then 0 else -G * m1 * m2 / d

/-- Source `MathUtils.angularMomentum(mass, position, velocity) =
cross(position, velocity·mass)`. -/
def angularMomentum (mass : ℚ) (position velocity : Vec3) : Vec3 :=
  cross position (multiply velocity mass)

/-- Source `MathUtils.clamp(value, min, max)`. -/
def clamp (value lo hi : ℚ) : ℚ := min (max value lo) hi

/-- Source `MathUtils.rk4Step(f, t, y, h)`.  The last line of the source
reads `this.add(k1, this.multiply(this.add(k2, k3), 2), k4)`; `add` is a
two-argument function, so JavaScript discards the third argument `k4`.
The translation reproduces that: `k4` is computed but does not influence
the result. -/
def rk4Step (f : ℚ → Vec3 → Vec3) (t : ℚ) (y : Vec3) (h : ℚ) : Vec3 :=
  let k1 := f t y
  let k2 := f (t + h / 2) (add y (multiply k1 (h / 2)))
  let k3 := f (t + h / 2) (add y (multiply k2 (h / 2)))
  let k4 := f (t + h) (add y (multiply k3 h))
  let _unused := k4
  add y (multiply (add k1 (multiply (add k2 k3) 2)) (h / 6))

/-- Modelled from the spec: the classic four-stage weighted average
`y' = y + h/6·(k1 + 2k2 + 2k3 + k4)` that section 4.1 of the spec states
`rk4Step` returns; kept separate so that it can be compared with the
source translation `rk4Step`. -/
def rk4SpecStep (f : ℚ → Vec3 → Vec3) (t : ℚ) (y : Vec3) (h : ℚ) : Vec3 :=
  let k1 := f t y
  let k2 := f (t + h / 2) (add y (multiply k1 (h / 2)))
  let k3 := f (t + h / 2) (add y (multiply k2 (h / 2)))
  let k4 := f (t + h) (add y (multiply k3 h))
  add y (multiply (add (add (add k1 (multiply k2 2)) (multiply k3 2)) k4) (h / 6))

/-- Source `MathUtils.verletStep(position, velocity, acceleration, dt)`:
the new position `p + v·dt + 0.5·a·dt²`. -/
def verletStep (position velocity acceleration : Vec3) (dt : ℚ) : Vec3 :=
  add position (add (multiply velocity dt) (multiply acceleration ((1 / 2) * dt * dt)))

end MathUtils

/-- A simulated body.  The rendering-only fields of the source record
(`color`, `type`, `trail`, `maxTrailLength`) carry no physics and are
omitted; every field read by the physics code is present. -/
structure Body where
  id : Nat
  mass : ℚ
  position : Vec3
  velocity : Vec3
  acceleration : Vec3
  radius : ℚ
deriving DecidableEq

namespace MathUtils

/-- Source `MathUtils.totalEnergy(bodies)`, kinetic part: the summed
kinetic energy of every body. -/
def kineticSum (bodies : List Body) : ℚ :=
  (bodies.map (fun b => kineticEnergy b.mass b.velocity)).sum

/-- Source `MathUtils.totalEnergy(bodies)`, potential part: the double
loop `for i, for j > i` adding `gravitationalPotentialEnergy` of each
unordered pair, written as structural recursion (head against the rest,
then the rest among themselves). -/
def pairPE : List Body → ℚ
  | [] => 0
  | b :: rest =>
      (rest.map (fun c =>
        gravitationalPotentialEnergy b.mass c.mass b.position c.position)).sum + pairPE rest

/-- Source `MathUtils.totalEnergy(bodies)`: kinetic sum plus unordered
pairwise potential sum. -/
def totalEnergy (bodies : List Body) : ℚ := kineticSum bodies + pairPE bodies

/-- Source `MathUtils.totalAngularMomentum(bodies)`: fold of vector
addition of each body's angular momentum, starting from the zero vector. -/
def totalAngularMomentum (bodies : List Body) : Vec3 :=
  bodies.foldl (fun acc b => add acc (angularMomentum b.mass b.position b.velocity)) ⟨0, 0, 0⟩

end MathUtils

/-- A spatial-hash cell coordinate.  The source encodes the triple as the
string `"x,y,z"`; two such strings are equal exactly when the integer
triples are, so the key is modelled as the triple itself. -/
abbrev CellKey := ℤ × ℤ × ℤ

/-- The spatial hash: an insertion-ordered map from cell key to the bucket
of bodies (identified by their index in the engine's body list, the model
of JavaScript object identity) inside that cell.  Models the source's
`Map` with its insertion-order iteration. -/
abbrev SpatialHash := List (CellKey × List Nat)

/-- Lookup in the spatial hash, `spatialHash.get(cell) || []`: the bucket
of the first entry with the given key, or the empty bucket. -/
def hashLookup : SpatialHash → CellKey → List Nat
  | [], _ => []
  | kb :: rest, k => if kb.1 = k then kb.2 else hashLookup rest k

/-- One `updateSpatialHash` loop iteration: push body `i` onto the bucket
of key `k`, creating the bucket (at the end, as `Map.set` does) if the key
is absent. -/
def hashInsert : SpatialHash → CellKey → Nat → SpatialHash
  | [], k, i => [(k, [i])]
  | kb :: rest, k, i =>
      if kb.1 = k then (kb.1, kb.2 ++ [i]) :: rest else kb :: hashInsert rest k i

/-- Fold of `hashInsert` over a list of (cell key, body index) pairs. -/
def hashOfPairs (ps : List (CellKey × Nat)) : SpatialHash :=
  ps.foldl (fun m p => hashInsert m p.1 p.2) []

/-- Source `getCellKey(position)`: floor-division of each coordinate by
the cell size. -/
def getCellKey (cellSize : ℚ) (p : Vec3) : CellKey :=
  (⌊p.x / cellSize⌋, ⌊p.y / cellSize⌋, ⌊p.z / cellSize⌋)

/-- The (cell key, body index) pairs inserted by `updateSpatialHash`, in
body-list order; the body at list index `i` is recorded as `i`. -/
def cellPairs (cellSize : ℚ) (bodies : List Body) : List (CellKey × Nat) :=
  bodies.enum.map (fun ib => (getCellKey cellSize ib.2.position, ib.1))

/-- Source `updateSpatialHash()`: clear the hash, then insert every body
into the bucket of its cell key, in body-list order. -/
def buildHash (cellSize : ℚ) (bodies : List Body) : SpatialHash :=
  hashOfPairs (cellPairs cellSize bodies)

/-- The 26 offsets of the `getNeighboringCells` triple loop, in loop order
(`dx`, then `dy`, then `dz`, each over −1, 0, 1), with `(0,0,0)` skipped. -/
def neighborOffsets : List CellKey :=
  (([-1, 0, 1] : List ℤ).flatMap (fun dx =>
    ([-1, 0, 1] : List ℤ).flatMap (fun dy =>
      ([-1, 0, 1] : List ℤ).map (fun dz => (dx, dy, dz))))).filter
    (fun o => o ≠ ((0 : ℤ), (0 : ℤ), (0 : ℤ)))

/-- Source `getNeighboringCells(cell)`: the 26 surrounding cell keys,
always all of them regardless of occupancy. -/
def getNeighboringCells (c : CellKey) : List CellKey :=
  neighborOffsets.map (fun o => (c.1 + o.1, c.2.1 + o.2.1, c.2.2 + o.2.2))

/-- The ordered intra-bucket index pairs of the `for i, for j > i` double
loop: the head against every later element, then the rest among
themselves. -/
def intraPairs : List Nat → List (Nat × Nat)
  | [] => []
  | a :: rest => rest.map (fun b => (a, b)) ++ intraPairs rest

/-- The ordered cross-bucket index pairs of the `for body1 of cell, for
body2 of neighbor` double loop. -/
def crossPairs (l1 l2 : List Nat) : List (Nat × Nat) :=
  l1.flatMap (fun a => l2.map (fun b => (a, b)))

/-- The full ordered sequence of index pairs on which `calculateForces`
invokes `calculateForceBetween`: for every occupied cell in hash-iteration
order, first the intra-cell pairs, then for each of the 26 neighbor keys
the cross pairs against that neighbor's bucket. -/
def forcePairs (hash : SpatialHash) : List (Nat × Nat) :=
  hash.flatMap (fun cb =>
    intraPairs cb.2 ++
      (getNeighboringCells cb.1).flatMap (fun nb => crossPairs cb.2 (hashLookup hash nb)))

/-- The mutable state threaded through `calculateForces`: the engine's
body list together with the `stats.forceCalculations` counter. -/
structure ForceState where
  bodies : List Body
  forceCalculations : Nat
deriving DecidableEq

/-- Source `calculateForceBetween(body1, body2)` acting on the bodies at
the two given indices: skip when the separation magnitude is below the
softening threshold, otherwise add the softened gravitational
acceleration to the first body, subtract it (scaled by −1/m₂) from the
second, and increment the force counter.  Out-of-range indices (which a
well-formed hash never produces) leave the state unchanged. -/
def calculateForceBetween (grav soft : ℚ) (s : ForceState) (ij : Nat × Nat) : ForceState :=
  match s.bodies.get? ij.1, s.bodies.get? ij.2 with
  | some body1, some body2 =>
      let r := MathUtils.subtract body2.position body1.position
      let dist := MathUtils.magnitude r
      if dist < soft then s
      else
        let forceMagnitude := grav * body1.mass * body2.mass / (dist * dist + soft * soft)
        let forceDirection := MathUtils.normalize r
        let force := MathUtils.multiply forceDirection forceMagnitude
        let body1' := { body1 with
          acceleration := MathUtils.add body1.acceleration (MathUtils.divide force body1.mass) }
        let body2' := { body2 with
          acceleration := MathUtils.add body2.acceleration
            (MathUtils.multiply force (-1 / body2.mass)) }
        { bodies := (s.bodies.set ij.1 body1').set ij.2 body2',
          forceCalculations := s.forceCalculations + 1 }
  | _, _ => s

/-- The acceleration reset at the top of `calculateForces`. -/
def resetAccelerations (bodies : List Body) : List Body :=
  bodies.map (fun b => { b with acceleration := ⟨0, 0, 0⟩ })

/-- Source `calculateForces()`: zero the force counter, reset every
acceleration, then run `calculateForceBetween` over `forcePairs` of the
engine's *current* spatial hash (the source does not rebuild the hash
here; it iterates `this.spatialHash` as it stands). -/
def calculateForces (grav soft : ℚ) (bodies : List Body) (hash : SpatialHash) : ForceState :=
  (forcePairs hash).foldl (calculateForceBetween grav soft) ⟨resetAccelerations bodies, 0⟩

/-- Source `resolveCollision(body1, body2)`: elastic impulse with
restitution 0.8 along the collision normal; bodies already separating
(positive relative normal velocity) are left unchanged.  Note the impulse
is `−(1 + restitution)·vₙ` with no division by `1/m1 + 1/m2`. -/
def resolveCollision (body1 body2 : Body) : Body × Body :=
  let normal := MathUtils.normalize (MathUtils.subtract body2.position body1.position)
  let relativeVelocity := MathUtils.subtract body2.velocity body1.velocity
  let velocityAlongNormal := MathUtils.dot relativeVelocity normal
  if velocityAlongNormal > 0 then (body1, body2)
  else
    let restitution : ℚ := 8 / 10
    let impulse := -(1 + restitution) * velocityAlongNormal
    let impulseVector := MathUtils.multiply normal impulse
    let v1 := MathUtils.add body1.velocity (MathUtils.multiply impulseVector (-1 / body1.mass))
    let v2 := MathUtils.add body2.velocity (MathUtils.multiply impulseVector (1 / body2.mass))
    ({ body1 with velocity := v1 }, { body2 with velocity := v2 })

/-- One iteration of the `handleCollisions` double loop at index pair
`(i, j)`: when the two bodies overlap (distance below the sum of radii),
apply `resolveCollision` and count a collision. -/
def handleCollisionsStep (s : List Body × Nat) (ij : Nat × Nat) : List Body × Nat :=
  match s.1.get? ij.1, s.1.get? ij.2 with
  | some body1, some body2 =>
      let dist := MathUtils.distance body1.position body2.position
      let collisionDistance := body1.radius + body2.radius
      if dist < collisionDistance then
        let p := resolveCollision body1 body2
        ((s.1.set ij.1 p.1).set ij.2 p.2, s.2 + 1)
      else s
  | _, _ => s

/-- Source `handleCollisions()`: reset the collision counter, then visit
every index pair `i < j` of the body list. -/
def handleCollisionsList (bodies : List Body) : List Body × Nat :=
  (intraPairs (List.range bodies.length)).foldl handleCollisionsStep (bodies, 0)

/-- Source `calculateRadius(mass) = Math.pow(mass, 1/3) * 0.1`; the cube
root is modelled exactly on perfect cubes (the only masses evaluated
concretely here), via the largest natural number whose cube does not
exceed the argument, on numerator and denominator. -/
def natCbrt (n : Nat) : Nat := ((List.range (n + 2)).filter (fun k => k * k * k ≤ n)).length - 1

/-- Rational cube-root model used by `calculateRadius`, exact on perfect
cubes. -/
def ratCbrt (q : ℚ) : ℚ := (natCbrt q.num.toNat : ℚ) / (natCbrt q.den : ℚ)

/-- Source `calculateRadius(mass)`. -/
def calculateRadius (mass : ℚ) : ℚ := ratCbrt mass * (1 / 10)

/-- Source `stats` record of the engine. -/
structure Stats where
  forceCalculations : Nat
  integrationSteps : Nat
  collisions : Nat
  energyError : ℚ
deriving DecidableEq

/-- The `PhysicsEngine` instance state.  `timeStep`, `collisionRadius` and
the rendering colour pool are never read by the physics paths verified
here and are omitted. -/
structure PhysicsEngine where
  bodies : List Body
  timeScale : ℚ
  gravity : ℚ
  softening : ℚ
  integrationMethod : String
  maxBodies : Nat
  spatialHash : SpatialHash
  hashCellSize : ℚ
  initialEnergy : ℚ
  energyConservation : Bool
  collisionDetection : Bool
  stats : Stats
deriving DecidableEq

namespace PhysicsEngine

/-- The engine constructor's initial state. -/
def init : PhysicsEngine where
  bodies := []
  timeScale := 1
  gravity := MathUtils.G
  softening := 1 / 1000000
  integrationMethod := "rk4"
  maxBodies := 1000
  spatialHash := []
  hashCellSize := 1000
  initialEnergy := 0
  energyConservation := true
  collisionDetection := false
  stats := ⟨0, 0, 0, 0⟩

/-- Source `updateSpatialHash()` on the engine. -/
def updateSpatialHash (e : PhysicsEngine) : PhysicsEngine :=
  { e with spatialHash := buildHash e.hashCellSize e.bodies }

/-- Source `addBody(mass, position, velocity)`: rejected (`none`) at
capacity, otherwise a body whose id is the *current body-list length* is
appended, the hash is rebuilt, and the new id is returned. -/
def addBody (e : PhysicsEngine) (mass : ℚ) (position velocity : Vec3) :
    Option Nat × PhysicsEngine :=
  if e.bodies.length ≥ e.maxBodies then (none, e)
  else
    let body : Body :=
      { id := e.bodies.length, mass := mass, position := position, velocity := velocity,
        acceleration := ⟨0, 0, 0⟩, radius := calculateRadius mass }
    let e' := updateSpatialHash { e with bodies := e.bodies ++ [body] }
    (some body.id, e')

/-- Source `removeBody(bodyId)`: splice out the first body whose id
matches, rebuild the hash, and report success. -/
def removeBody (e : PhysicsEngine) (bodyId : Nat) : Bool × PhysicsEngine :=
  match e.bodies.findIdx? (fun b => b.id = bodyId) with
  | some index => (true, updateSpatialHash { e with bodies := e.bodies.eraseIdx index })
  | none => (false, e)

/-- Source `updateEuler(dt)`: `v ← v + a·dt` then `p ← p + v·dt` with the
updated velocity (semi-implicit Euler). -/
def updateEuler (e : PhysicsEngine) (dt : ℚ) : PhysicsEngine :=
  { e with bodies := e.bodies.map (fun b =>
      let velocity := MathUtils.add b.velocity (MathUtils.multiply b.acceleration dt)
      let position := MathUtils.add b.position (MathUtils.multiply velocity dt)
      { b with velocity := velocity, position := position }) }

/-- Source `updateVerlet(dt)`: position from `verletStep`, velocity from
the pre-update acceleration, both computed before either is assigned. -/
def updateVerlet (e : PhysicsEngine) (dt : ℚ) : PhysicsEngine :=
  { e with bodies := e.bodies.map (fun b =>
      let newPosition := MathUtils.verletStep b.position b.velocity b.acceleration dt
      let newVelocity := MathUtils.add b.velocity (MathUtils.multiply b.acceleration dt)
      { b with position := newPosition, velocity := newVelocity }) }

/-- Source `handleCollisions()` on the engine. -/
def handleCollisions (e : PhysicsEngine) : PhysicsEngine :=
  let r := handleCollisionsList e.bodies
  { e with bodies := r.1, stats := { e.stats with collisions := r.2 } }

/-- Source `trackEnergyConservation()`: on the first tracked tick the
current total energy becomes the baseline; afterwards
`|current − baseline| / baseline` (the *signed* baseline) is stored as
`stats.energyError`. -/
def trackEnergyConservation (e : PhysicsEngine) : PhysicsEngine :=
  if e.energyConservation = false then e
  else
    let currentEnergy := MathUtils.totalEnergy e.bodies
    if e.initialEnergy = 0 then { e with initialEnergy := currentEnergy }
    else { e with stats := { e.stats with
      energyError := |currentEnergy - e.initialEnergy| / e.initialEnergy } }

/-- The tail of `update(deltaTime)` shared by every integration branch:
optional collision handling, hash rebuild, energy tracking.  (The trail
bookkeeping that precedes it in the source touches only the
rendering-only `trail` field and is omitted.) -/
def postIntegration (e : PhysicsEngine) : PhysicsEngine :=
  let e := if e.collisionDetection then e.handleCollisions else e
  trackEnergyConservation e.updateSpatialHash

/-- Source `update(deltaTime)`.  `dt ≤ 0` is a no-op; otherwise the step
counter is incremented and the selected integrator runs.  The `rk4` (and
unknown-method default) branch hands a flat array to `rk4Step`, which in
the source operates on `{x, y, z}` objects: every body component comes
back `undefined` (proved on the dynamic model `rk4StepJS` below).  That
branch has no exact-rational outcome, so it is returned as `none` here;
the euler and verlet branches are translated in full. -/
def update (e : PhysicsEngine) (deltaTime : ℚ) : Option PhysicsEngine :=
  let dt := deltaTime * e.timeScale
  if dt ≤ 0 then some e
  else
    let e := { e with stats := { e.stats with
      integrationSteps := e.stats.integrationSteps + 1 } }
    match e.integrationMethod with
    | "verlet" => some (postIntegration (e.updateVerlet dt))
    | "euler" => some (postIntegration (e.updateEuler dt))
    | _ => none

/-- Source `setIntegrationMethod(method)`: unknown names are ignored. -/
def setIntegrationMethod (e : PhysicsEngine) (method : String) : PhysicsEngine :=
  if method = "rk4" ∨ method = "verlet" ∨ method = "euler" then
    { e with integrationMethod := method }
  else e

end PhysicsEngine

/-! Dynamic JavaScript value semantics for the `updateRK4` path.

`updateRK4` packs the bodies into a flat JavaScript *array* and hands it
to `MathUtils.rk4Step`, whose `add`/`multiply` read the properties `x`,
`y`, `z`.  An array has no such properties, so those reads yield
`undefined`, arithmetic on `undefined` yields `NaN`, and the result of
`add` is always an `{x, y, z}` object literal.  `setStateVector` then
reads numeric indices `state[0], state[1], …` from that object — all
`undefined`.  The fragment of JavaScript evaluation needed to prove this
is modelled here. -/

/-- A JavaScript primitive value as it occurs on this path: a finite
number, `NaN`, or `undefined`. -/
inductive JVal where
  | num (q : ℚ)
  | nan
  | undefJS
deriving DecidableEq

/-- A JavaScript value flowing through `rk4Step`: an `{x, y, z}` object
literal or an array. -/
inductive JState where
  | obj (x y z : JVal)
  | arr (l : List JVal)
deriving DecidableEq

/-- Property read `v.x`: arrays have no `x` property, so it yields
`undefined` on them. -/
def JState.getX : JState → JVal
  | .obj x _ _ => x
  | .arr _ => .undefJS

/-- Property read `v.y`. -/
def JState.getY : JState → JVal
  | .obj _ y _ => y
  | .arr _ => .undefJS

/-- Property read `v.z`. -/
def JState.getZ : JState → JVal
  | .obj _ _ z => z
  | .arr _ => .undefJS

/-- Numeric index read `state[i]`: out-of-range array reads and any index
read on an `{x, y, z}` object yield `undefined`. -/
def JState.getIdx : JState → Nat → JVal
  | .obj _ _ _, _ => .undefJS
  | .arr l, i => l.getD i .undefJS

/-- JavaScript `+` on this path: number + number is exact; any operand
that is `undefined` or `NaN` makes the result `NaN`. -/
def jvalAdd : JVal → JVal → JVal
  | .num a, .num b => .num (a + b)
  | _, _ => .nan

/-- JavaScript `*` on this path, same coercion behaviour as `+`. -/
def jvalMul : JVal → JVal → JVal
  | .num a, .num b => .num (a * b)
  | _, _ => .nan

/-- Source `MathUtils.add(v1, v2)` under dynamic typing: always returns an
`{x, y, z}` object literal built from the operands' `x`/`y`/`z` property
reads. -/
def jsAdd (v1 v2 : JState) : JState :=
  .obj (jvalAdd v1.getX v2.getX) (jvalAdd v1.getY v2.getY) (jvalAdd v1.getZ v2.getZ)

/-- Source `MathUtils.multiply(v, scalar)` under dynamic typing, scalar a
number. -/
def jsMultiply (v : JState) (scalar : ℚ) : JState :=
  .obj (jvalMul v.getX (.num scalar)) (jvalMul v.getY (.num scalar))
    (jvalMul v.getZ (.num scalar))

/-- Source `MathUtils.rk4Step(f, t, y, h)` under dynamic typing, for an
arbitrary derivative function `f` (in the engine, `derivativeFunction`).
As in the exact model, the third argument of the final three-argument
`add` call (`k4`) is discarded by JavaScript. -/
def rk4StepJS (f : ℚ → JState → JState) (t : ℚ) (y : JState) (h : ℚ) : JState :=
  let k1 := f t y
  let k2 := f (t + h / 2) (jsAdd y (jsMultiply k1 (h / 2)))
  let k3 := f (t + h / 2) (jsAdd y (jsMultiply k2 (h / 2)))
  let k4 := f (t + h) (jsAdd y (jsMultiply k3 h))
  let _unused := k4
  jsAdd y (jsMultiply (jsAdd k1 (jsMultiply (jsAdd k2 k3) 2)) (h / 6))

/-- Source `getStateVector()` for concrete numeric bodies: the flat
JavaScript array `[p.x, p.y, p.z, v.x, v.y, v.z]` per body, in body-list
order. -/
def getStateVectorJS (bodies : List Body) : JState :=
  .arr (bodies.flatMap (fun b =>
    [.num b.position.x, .num b.position.y, .num b.position.z,
     .num b.velocity.x, .num b.velocity.y, .num b.velocity.z]))

/-- The pairwise potential term of `totalEnergy` as a function of two
bodies (definitionally the summand of `pairPE`). -/
def bodyPE (b c : Body) : ℚ :=
  MathUtils.gravitationalPotentialEnergy b.mass c.mass b.position c.position

/-- The per-body angular-momentum summand of `totalAngularMomentum`. -/
def bodyAM (b : Body) : Vec3 := MathUtils.angularMomentum b.mass b.position b.velocity

/-- Whether the index pair survives the softening guard of
`calculateForceBetween`; it depends only on the bodies' positions, which
`calculateForces` never changes, so it can be read off the initial body
list. -/
def passesGuard (soft : ℚ) (bodies : List Body) (ij : Nat × Nat) : Bool :=
  match bodies.get? ij.1, bodies.get? ij.2 with
  | some body1, some body2 =>
      ¬ (MathUtils.magnitude (MathUtils.subtract body2.position body1.position) < soft)
  | _, _ => false

/-! Evaluation helpers for the square-root model. -/

theorem ratSqrt_eval {q : ℚ} {a b : ℕ} (hnum : q.num = (a : ℤ) * a) (hden : q.den = b * b) :
    ratSqrt q = (a : ℚ) / (b : ℚ) := by
  have h1 : q.num.toNat = a * a := by
    rw [hnum]
    exact_mod_cast Int.toNat_ofNat (a * a)
  rw [ratSqrt, h1, hden, Nat.sqrt_eq, Nat.sqrt_eq]

theorem ratSqrt_zero : ratSqrt 0 = 0 := by
  have : ratSqrt 0 = ((0 : ℕ) : ℚ) / ((1 : ℕ) : ℚ) := ratSqrt_eval rfl rfl
  simpa using this

theorem ratSqrt_one : ratSqrt 1 = 1 := by
  have : ratSqrt 1 = ((1 : ℕ) : ℚ) / ((1 : ℕ) : ℚ) := ratSqrt_eval rfl rfl
  simpa using this

theorem magnitude_zero_vec : MathUtils.magnitude ⟨0, 0, 0⟩ = 0 := by
  have h : (0 * 0 + 0 * 0 + 0 * 0 : ℚ) = 0 := by norm_num
  rw [MathUtils.magnitude, h, ratSqrt_zero]

/-- C2: refuted as stated.  For the derivative `f(t, y) = (t, 0, 0)` with
`t = 0`, `y = 0`, `h = 1`, the source `rk4Step` returns `(1/3, 0, 0)`
because JavaScript discards the third argument (`k4`) of the binary `add`
in its final line, while the four-stage weighted average
`y + h/6·(k1 + 2k2 + 2k3 + k4)` stated by the spec yields `(1/2, 0, 0)`;
the returned value does not depend on `k4`. -/
theorem rk4Step_drops_k4 :
    MathUtils.rk4Step (fun t _ => ⟨t, 0, 0⟩) 0 ⟨0, 0, 0⟩ 1 = ⟨1 / 3, 0, 0⟩ ∧
    MathUtils.rk4SpecStep (fun t _ => ⟨t, 0, 0⟩) 0 ⟨0, 0, 0⟩ 1 = ⟨1 / 2, 0, 0⟩ ∧
    ((1 : ℚ) / 3) ≠ 1 / 2 := by
  refine ⟨?_, ?_, by norm_num⟩
  · simp only [MathUtils.rk4Step, MathUtils.add, MathUtils.multiply, Vec3.mk.injEq]
    norm_num
  · simp only [MathUtils.rk4SpecStep, MathUtils.add, MathUtils.multiply, Vec3.mk.injEq]
    norm_num

/-- C3: refuted on the dynamic model; the RK4 stepper is not
state-shape-agnostic.  For *every* derivative function `f` (in particular
the engine's `derivativeFunction`), every body list, every step size and
every index, the value `rk4Step` hands back to `setStateVector` is an
`{x, y, z}` object — the result of the final `add` — so each numeric
index read `state[i]` that `setStateVector` performs yields `undefined`,
not the corresponding entry of a stepped flat sequence.  After the rk4
branch of `update`, every body position/velocity component is therefore
`undefined`. -/
theorem rk4StepJS_unpack_undefined (f : ℚ → JState → JState) (bodies : List Body)
    (h : ℚ) (i : Nat) :
    (rk4StepJS f 0 (getStateVectorJS bodies) h).getIdx i = JVal.undefJS := by
  simp only [rk4StepJS, jsAdd, JState.getIdx]

/-- C8: confirmed.  Whenever the two looked-up bodies occupy identical
positions, the separation has magnitude 0, which is below any positive
softening threshold, so `calculateForceBetween` takes the guard branch
and returns the state — and with it both accelerations — exactly
unchanged; the division by the magnitude is never reached. -/
theorem calculateForceBetween_same_position (grav soft : ℚ) (s : ForceState) (i j : Nat)
    (b1 b2 : Body) (hi : s.bodies.get? i = some b1) (hj : s.bodies.get? j = some b2)
    (hpos : b1.position = b2.position) (hsoft : 0 < soft) :
    calculateForceBetween grav soft s (i, j) = s := by
  have hsub : MathUtils.subtract b2.position b1.position = ⟨0, 0, 0⟩ := by
    rw [hpos]
    simp [MathUtils.subtract]
  simp only [calculateForceBetween, hi, hj, hsub, magnitude_zero_vec, if_pos hsoft]

/-- Witness for C8 at a concrete input: two unit-mass bodies at the same
point, softening `1e-6`. -/
theorem calculateForceBetween_same_position_witness :
    (ForceState.mk [⟨0, 1, ⟨2, 3, 4⟩, ⟨0, 0, 0⟩, ⟨0, 0, 0⟩, 1⟩,
        ⟨1, 1, ⟨2, 3, 4⟩, ⟨5, 0, 0⟩, ⟨0, 0, 0⟩, 1⟩] 0).bodies.get? 0 =
      some ⟨0, 1, ⟨2, 3, 4⟩, ⟨0, 0, 0⟩, ⟨0, 0, 0⟩, 1⟩ ∧
    (0 : ℚ) < 1 / 1000000 ∧
    calculateForceBetween 1 (1 / 1000000)
      (ForceState.mk [⟨0, 1, ⟨2, 3, 4⟩, ⟨0, 0, 0⟩, ⟨0, 0, 0⟩, 1⟩,
        ⟨1, 1, ⟨2, 3, 4⟩, ⟨5, 0, 0⟩, ⟨0, 0, 0⟩, 1⟩] 0) (0, 1) =
      ForceState.mk [⟨0, 1, ⟨2, 3, 4⟩, ⟨0, 0, 0⟩, ⟨0, 0, 0⟩, 1⟩,
        ⟨1, 1, ⟨2, 3, 4⟩, ⟨5, 0, 0⟩, ⟨0, 0, 0⟩, 1⟩] 0 :=
  ⟨rfl, by norm_num,
    calculateForceBetween_same_position 1 (1 / 1000000) _ 0 1 _ _ rfl rfl rfl (by norm_num)⟩

theorem magnitude_unit_x : MathUtils.magnitude ⟨1, 0, 0⟩ = 1 := by
  have h : (1 * 1 + 0 * 0 + 0 * 0 : ℚ) = 1 := by norm_num
  rw [MathUtils.magnitude, h, ratSqrt_one]

theorem normalize_unit_x : MathUtils.normalize ⟨1, 0, 0⟩ = ⟨1, 0, 0⟩ := by
  rw [MathUtils.normalize]
  simp only [magnitude_unit_x, one_ne_zero, if_false, MathUtils.divide]
  norm_num

/-- C5: refuted as stated (the code, not the claim, is at fault).  Two
bodies of mass 1000 and radius 1 at distance 1 (overlapping), moving
head-on with relative normal velocity −2: `resolveCollision` leaves them
with relative normal velocity −2491/1250 (≈ −1.993 — still approaching),
not the −0.8·(−2) = 8/5 that restitution 0.8 demands, because the impulse
`−(1 + 0.8)·vₙ` is not divided by `1/m1 + 1/m2`.  The claimed identity
only holds on the mass-measure-one family `1/m1 + 1/m2 = 1`. -/
theorem resolveCollision_violates_restitution :
    MathUtils.distance ⟨0, 0, 0⟩ ⟨1, 0, 0⟩ < (1 : ℚ) + 1 ∧
    MathUtils.dot (MathUtils.subtract ⟨-1, 0, 0⟩ ⟨1, 0, 0⟩)
      (MathUtils.normalize (MathUtils.subtract ⟨1, 0, 0⟩ ⟨0, 0, 0⟩)) = -2 ∧
    (resolveCollision ⟨0, 1000, ⟨0, 0, 0⟩, ⟨1, 0, 0⟩, ⟨0, 0, 0⟩, 1⟩
        ⟨1, 1000, ⟨1, 0, 0⟩, ⟨-1, 0, 0⟩, ⟨0, 0, 0⟩, 1⟩).1.velocity = ⟨2491 / 2500, 0, 0⟩ ∧
    (resolveCollision ⟨0, 1000, ⟨0, 0, 0⟩, ⟨1, 0, 0⟩, ⟨0, 0, 0⟩, 1⟩
        ⟨1, 1000, ⟨1, 0, 0⟩, ⟨-1, 0, 0⟩, ⟨0, 0, 0⟩, 1⟩).2.velocity = ⟨-2491 / 2500, 0, 0⟩ ∧
    MathUtils.dot (MathUtils.subtract ⟨-2491 / 2500, 0, 0⟩ ⟨2491 / 2500, 0, 0⟩)
      (MathUtils.normalize (MathUtils.subtract ⟨1, 0, 0⟩ ⟨0, 0, 0⟩)) = -2491 / 1250 ∧
    (-2491 / 1250 : ℚ) ≠ -(8 / 10) * (-2) := by
  have hsub : MathUtils.subtract (⟨1, 0, 0⟩ : Vec3) ⟨0, 0, 0⟩ = ⟨1, 0, 0⟩ := by
    simp [MathUtils.subtract]
  have hdist : MathUtils.distance ⟨0, 0, 0⟩ ⟨1, 0, 0⟩ = 1 := by
    have h : ((0 - 1) * (0 - 1) + (0 - 0) * (0 - 0) + (0 - 0) * (0 - 0) : ℚ) = 1 := by
      norm_num
    rw [MathUtils.distance, h, ratSqrt_one]
  refine ⟨by rw [hdist]; norm_num, ?_, ?_, ?_, ?_, by norm_num⟩
  · rw [hsub, normalize_unit_x]
    simp only [MathUtils.dot, MathUtils.subtract]
    norm_num
  · rw [resolveCollision, hsub, normalize_unit_x]
    simp only [MathUtils.dot, MathUtils.subtract, MathUtils.add, MathUtils.multiply]
    norm_num
  · rw [resolveCollision, hsub, normalize_unit_x]
    simp only [MathUtils.dot, MathUtils.subtract, MathUtils.add, MathUtils.multiply]
    norm_num
  · rw [hsub, normalize_unit_x]
    simp only [MathUtils.dot, MathUtils.subtract]
    norm_num

/-- C6: refuted as stated (the code, not the claim, is at fault).  After
`addBody`, `addBody`, `removeBody 0`, `addBody`, the live bodies carry the
ids `[1, 1]`: `addBody` assigns `id := bodies.length`, so removing a
body frees the length slot and the freed value 1 is reassigned while the
original id-1 body is still alive — live ids are not pairwise distinct. -/
theorem addBody_reuses_live_id :
    ((((PhysicsEngine.init.addBody 1 ⟨0, 0, 0⟩ ⟨0, 0, 0⟩).2.addBody 1
          ⟨1, 0, 0⟩ ⟨0, 0, 0⟩).2.removeBody 0).2.addBody 1
          ⟨2, 0, 0⟩ ⟨0, 0, 0⟩).2.bodies.map Body.id = [1, 1] ∧
    ¬ (((((PhysicsEngine.init.addBody 1 ⟨0, 0, 0⟩ ⟨0, 0, 0⟩).2.addBody 1
          ⟨1, 0, 0⟩ ⟨0, 0, 0⟩).2.removeBody 0).2.addBody 1
          ⟨2, 0, 0⟩ ⟨0, 0, 0⟩).2.bodies.map Body.id).Nodup := by
  constructor
  · rfl
  · decide

theorem gravitationalPotentialEnergy_comm (m1 m2 : ℚ) (r1 r2 : Vec3) :
    MathUtils.gravitationalPotentialEnergy m1 m2 r1 r2 =
      MathUtils.gravitationalPotentialEnergy m2 m1 r2 r1 := by
  have hd : MathUtils.distance r1 r2 = MathUtils.distance r2 r1 := by
    unfold MathUtils.distance
    exact congrArg ratSqrt (by ring)
  simp only [MathUtils.gravitationalPotentialEnergy, hd]
  split
  · rfl
  · ring

theorem gravitationalPotentialEnergy_self (m1 m2 : ℚ) (r : Vec3) :
    MathUtils.gravitationalPotentialEnergy m1 m2 r r = 0 := by
  have hd : MathUtils.distance r r = 0 := by
    unfold MathUtils.distance
    have h : ((r.x - r.x) * (r.x - r.x) + (r.y - r.y) * (r.y - r.y) +
        (r.z - r.z) * (r.z - r.z) : ℚ) = 0 := by ring
    rw [h, ratSqrt_zero]
  simp [MathUtils.gravitationalPotentialEnergy, hd]

theorem bodyPE_comm (b c : Body) : bodyPE b c = bodyPE c b :=
  gravitationalPotentialEnergy_comm _ _ _ _

theorem bodyPE_self (b : Body) : bodyPE b b = 0 :=
  gravitationalPotentialEnergy_self _ _ _

theorem pairPE_double (l : List Body) :
    2 * MathUtils.pairPE l = (l.map (fun b => (l.map (bodyPE b)).sum)).sum := by
  induction l with
  | nil => simp [MathUtils.pairPE]
  | cons b rest ih =>
    have hhead : (rest.map (fun c =>
        MathUtils.gravitationalPotentialEnergy b.mass c.mass b.position c.position)) =
        rest.map (bodyPE b) := rfl
    simp only [MathUtils.pairPE, hhead, List.map_cons, List.sum_cons]
    rw [List.sum_map_add]
    have hsym : rest.map (fun x => bodyPE x b) = rest.map (bodyPE b) :=
      congrArg rest.map (funext fun x => bodyPE_comm x b)
    rw [hsym, bodyPE_self]
    linarith [ih]

theorem doubleSum_perm {l l' : List Body} (hp : l.Perm l') :
    (l.map (fun b => (l.map (bodyPE b)).sum)).sum =
      (l'.map (fun b => (l'.map (bodyPE b)).sum)).sum := by
  have hinner : ∀ b : Body, (l.map (bodyPE b)).sum = (l'.map (bodyPE b)).sum :=
    fun b => (hp.map (bodyPE b)).sum_eq
  have h1 : l.map (fun b => (l.map (bodyPE b)).sum) =
      l.map (fun b => (l'.map (bodyPE b)).sum) :=
    congrArg l.map (funext hinner)
  rw [h1]
  exact (hp.map (fun b => (l'.map (bodyPE b)).sum)).sum_eq

theorem pairPE_perm {l l' : List Body} (hp : l.Perm l') :
    MathUtils.pairPE l = MathUtils.pairPE l' := by
  have h2 : 2 * MathUtils.pairPE l = 2 * MathUtils.pairPE l' := by
    rw [pairPE_double, pairPE_double]
    exact doubleSum_perm hp
  exact mul_left_cancel₀ two_ne_zero h2

theorem kineticSum_perm {l l' : List Body} (hp : l.Perm l') :
    MathUtils.kineticSum l = MathUtils.kineticSum l' :=
  (hp.map _).sum_eq

theorem totalAngularMomentum_foldl (l : List Body) (acc : Vec3) :
    l.foldl (fun a b => MathUtils.add a
        (MathUtils.angularMomentum b.mass b.position b.velocity)) acc =
      ⟨acc.x + (l.map (fun b => (bodyAM b).x)).sum,
       acc.y + (l.map (fun b => (bodyAM b).y)).sum,
       acc.z + (l.map (fun b => (bodyAM b).z)).sum⟩ := by
  induction l generalizing acc with
  | nil => simp
  | cons b rest ih =>
    rw [List.foldl_cons, ih]
    simp only [MathUtils.add, bodyAM, List.map_cons, List.sum_cons]
    congr 1 <;> ring

theorem totalAngularMomentum_perm {l l' : List Body} (hp : l.Perm l') :
    MathUtils.totalAngularMomentum l = MathUtils.totalAngularMomentum l' := by
  unfold MathUtils.totalAngularMomentum
  rw [totalAngularMomentum_foldl, totalAngularMomentum_foldl]
  congr 1
  · exact congrArg _ (hp.map _).sum_eq
  · exact congrArg _ (hp.map _).sum_eq
  · exact congrArg _ (hp.map _).sum_eq

/-- C9: confirmed.  Total energy is invariant under any permutation of the
body list (the kinetic sum permutes termwise; the unordered pairwise
potential sum is handled through the symmetric double sum, using that the
self-term is guarded to 0), and the angular-momentum total — hence its
magnitude — is a commutative componentwise sum, equally invariant. -/
theorem totalEnergy_totalAngularMomentum_perm_invariant (l l' : List Body)
    (hp : l.Perm l') :
    MathUtils.totalEnergy l' = MathUtils.totalEnergy l ∧
    MathUtils.magnitude (MathUtils.totalAngularMomentum l') =
      MathUtils.magnitude (MathUtils.totalAngularMomentum l) := by
  constructor
  · unfold MathUtils.totalEnergy
    rw [kineticSum_perm hp, pairPE_perm hp]
  · rw [totalAngularMomentum_perm hp]

/-- Witness for C9 at the Figure-8 configuration of the spec (three unit
masses at (−1,0,0), (1,0,0), (0,0,0) with velocities (0,±1/2,0) and 0),
relabelled by swapping the first two bodies. -/
theorem totalEnergy_perm_invariant_witness :
    ([⟨0, 1, ⟨-1, 0, 0⟩, ⟨0, 1 / 2, 0⟩, ⟨0, 0, 0⟩, 1⟩,
      ⟨1, 1, ⟨1, 0, 0⟩, ⟨0, -1 / 2, 0⟩, ⟨0, 0, 0⟩, 1⟩,
      ⟨2, 1, ⟨0, 0, 0⟩, ⟨0, 0, 0⟩, ⟨0, 0, 0⟩, 1⟩] : List Body).Perm
      [⟨1, 1, ⟨1, 0, 0⟩, ⟨0, -1 / 2, 0⟩, ⟨0, 0, 0⟩, 1⟩,
       ⟨0, 1, ⟨-1, 0, 0⟩, ⟨0, 1 / 2, 0⟩, ⟨0, 0, 0⟩, 1⟩,
       ⟨2, 1, ⟨0, 0, 0⟩, ⟨0, 0, 0⟩, ⟨0, 0, 0⟩, 1⟩] ∧
    MathUtils.totalEnergy
      [⟨1, 1, ⟨1, 0, 0⟩, ⟨0, -1 / 2, 0⟩, ⟨0, 0, 0⟩, 1⟩,
       ⟨0, 1, ⟨-1, 0, 0⟩, ⟨0, 1 / 2, 0⟩, ⟨0, 0, 0⟩, 1⟩,
       ⟨2, 1, ⟨0, 0, 0⟩, ⟨0, 0, 0⟩, ⟨0, 0, 0⟩, 1⟩] =
      MathUtils.totalEnergy
      [⟨0, 1, ⟨-1, 0, 0⟩, ⟨0, 1 / 2, 0⟩, ⟨0, 0, 0⟩, 1⟩,
       ⟨1, 1, ⟨1, 0, 0⟩, ⟨0, -1 / 2, 0⟩, ⟨0, 0, 0⟩, 1⟩,
       ⟨2, 1, ⟨0, 0, 0⟩, ⟨0, 0, 0⟩, ⟨0, 0, 0⟩, 1⟩] ∧
    MathUtils.magnitude (MathUtils.totalAngularMomentum
      [⟨1, 1, ⟨1, 0, 0⟩, ⟨0, -1 / 2, 0⟩, ⟨0, 0, 0⟩, 1⟩,
       ⟨0, 1, ⟨-1, 0, 0⟩, ⟨0, 1 / 2, 0⟩, ⟨0, 0, 0⟩, 1⟩,
       ⟨2, 1, ⟨0, 0, 0⟩, ⟨0, 0, 0⟩, ⟨0, 0, 0⟩, 1⟩]) =
    MathUtils.magnitude (MathUtils.totalAngularMomentum
      [⟨0, 1, ⟨-1, 0, 0⟩, ⟨0, 1 / 2, 0⟩, ⟨0, 0, 0⟩, 1⟩,
       ⟨1, 1, ⟨1, 0, 0⟩, ⟨0, -1 / 2, 0⟩, ⟨0, 0, 0⟩, 1⟩,
       ⟨2, 1, ⟨0, 0, 0⟩, ⟨0, 0, 0⟩, ⟨0, 0, 0⟩, 1⟩]) := by
  refine ⟨List.Perm.swap _ _ _, ?_⟩
  exact totalEnergy_totalAngularMomentum_perm_invariant _ _ (List.Perm.swap _ _ _)

/-! Spatial-hash structure lemmas: what `hashInsert`/`hashOfPairs` build,
bucket contents, and key sets. -/

theorem hashLookup_hashInsert (m : SpatialHash) (k' k : CellKey) (i : Nat) :
    hashLookup (hashInsert m k' i) k =
      if k' = k then hashLookup m k ++ [i] else hashLookup m k := by
  induction m with
  | nil =>
    by_cases h : k' = k <;> simp [hashInsert, hashLookup, h]
  | cons kb rest ih =>
    by_cases h1 : kb.1 = k'
    · by_cases h2 : kb.1 = k
      · have hk : k' = k := h1 ▸ h2
        simp [hashInsert, hashLookup, h1, h2, hk]
      · have hk : ¬ k' = k := fun hc => h2 (h1.trans hc)
        have hk2 : ¬ k = k' := fun hc => hk hc.symm
        simp [hashInsert, hashLookup, h1, h2, hk, hk2]
    · by_cases h2 : kb.1 = k
      · have hk : ¬ k' = k := fun hc => h1 (h2.trans hc.symm)
        have hk2 : ¬ k = k' := fun hc => hk hc.symm
        simp [hashInsert, hashLookup, h1, h2, hk, hk2]
      · simp [hashInsert, hashLookup, h1, h2, ih]

theorem hashLookup_foldl_hashInsert (ps : List (CellKey × Nat)) (m : SpatialHash)
    (k : CellKey) :
    hashLookup (ps.foldl (fun m p => hashInsert m p.1 p.2) m) k =
      hashLookup m k ++ (ps.filter (fun p => p.1 = k)).map Prod.snd := by
  induction ps generalizing m with
  | nil => simp
  | cons p ps ih =>
    by_cases hpk : p.1 = k <;>
      simp [List.foldl_cons, ih, hashLookup_hashInsert, List.filter_cons, hpk]

theorem hashLookup_hashOfPairs (ps : List (CellKey × Nat)) (k : CellKey) :
    hashLookup (hashOfPairs ps) k = (ps.filter (fun p => p.1 = k)).map Prod.snd := by
  rw [hashOfPairs, hashLookup_foldl_hashInsert]
  rfl

/-- The key list of a spatial hash, in iteration order. -/
def hashKeys (m : SpatialHash) : List CellKey := m.map Prod.fst

theorem hashKeys_hashInsert (m : SpatialHash) (k : CellKey) (i : Nat) :
    hashKeys (hashInsert m k i) =
      if k ∈ hashKeys m then hashKeys m else hashKeys m ++ [k] := by
  induction m with
  | nil => simp [hashInsert, hashKeys]
  | cons kb rest ih =>
    by_cases h1 : kb.1 = k
    · simp [hashInsert, hashKeys, h1]
    · have h2 : ¬ k = kb.1 := fun hc => h1 hc.symm
      simp only [hashKeys] at ih
      by_cases hmem : k ∈ List.map Prod.fst rest <;>
        simp [hashInsert, hashKeys, h1, h2, hmem, ih, List.mem_cons]

theorem hashKeys_nodup_hashInsert (m : SpatialHash) (k : CellKey) (i : Nat)
    (hnd : (hashKeys m).Nodup) : (hashKeys (hashInsert m k i)).Nodup := by
  rw [hashKeys_hashInsert]
  by_cases hmem : k ∈ hashKeys m
  · simpa [hmem] using hnd
  · simp [hmem, List.nodup_append, hnd]

theorem hashKeys_nodup_foldl (ps : List (CellKey × Nat)) (m : SpatialHash)
    (hnd : (hashKeys m).Nodup) :
    (hashKeys (ps.foldl (fun m p => hashInsert m p.1 p.2) m)).Nodup := by
  induction ps generalizing m with
  | nil => exact hnd
  | cons p ps ih => exact ih _ (hashKeys_nodup_hashInsert _ _ _ hnd)

theorem hashKeys_nodup_hashOfPairs (ps : List (CellKey × Nat)) :
    (hashKeys (hashOfPairs ps)).Nodup :=
  hashKeys_nodup_foldl ps [] (by simp [hashKeys])

theorem mem_hashKeys_of_lookup_ne_nil {m : SpatialHash} {k : CellKey}
    (h : hashLookup m k ≠ []) : k ∈ hashKeys m := by
  induction m with
  | nil => simp [hashLookup] at h
  | cons kb rest ih =>
    by_cases h1 : kb.1 = k
    · simp [hashKeys, h1.symm]
    · simp only [hashLookup, h1, if_false] at h
      simp [hashKeys, List.mem_cons]
      right
      simpa [hashKeys] using ih h

theorem hashLookup_entry {m : SpatialHash} {cb : CellKey × List Nat}
    (hnd : (hashKeys m).Nodup) (hmem : cb ∈ m) : hashLookup m cb.1 = cb.2 := by
  induction m with
  | nil => simp at hmem
  | cons kb rest ih =>
    rcases List.mem_cons.mp hmem with heq | htail
    · simp [hashLookup, heq]
    · have hk1 : kb.1 ∉ hashKeys rest := by
        simp only [hashKeys, List.map_cons, List.nodup_cons] at hnd
        exact hnd.1
      have hne : kb.1 ≠ cb.1 := by
        intro hc
        exact hk1 (hc ▸ List.mem_map_of_mem Prod.fst htail)
      have hnd' : (hashKeys rest).Nodup := by
        simp only [hashKeys, List.map_cons, List.nodup_cons] at hnd
        exact hnd.2
      simp [hashLookup, hne, ih hnd' htail]

/-! Counting lemmas for the pair-enumeration combinators. -/

theorem count_map_pair (l : List Nat) (a u v : Nat) :
    ((l.map (fun b => (a, b))).count (u, v)) = if a = u then l.count v else 0 := by
  induction l with
  | nil => simp
  | cons b l ih =>
    simp only [List.map_cons, List.count_cons, ih, beq_iff_eq, Prod.mk.injEq]
    by_cases hu : a = u
    · subst hu
      by_cases hb : b = v <;> simp [hb]
    · simp [hu]

theorem count_crossPairs (l1 l2 : List Nat) (u v : Nat) :
    (crossPairs l1 l2).count (u, v) = l1.count u * l2.count v := by
  induction l1 with
  | nil => simp [crossPairs]
  | cons a l1 ih =>
    have hcp : crossPairs (a :: l1) l2 = l2.map (fun b => (a, b)) ++ crossPairs l1 l2 := by
      simp [crossPairs]
    rw [hcp, List.count_append, count_map_pair, ih, List.count_cons]
    by_cases h : a = u <;> simp [h] <;> ring

theorem count_intraPairs_add (l : List Nat) (u v : Nat) (huv : u ≠ v) :
    (intraPairs l).count (u, v) + (intraPairs l).count (v, u) = l.count u * l.count v := by
  induction l with
  | nil => simp [intraPairs]
  | cons a l ih =>
    have hvu : ¬ v = u := fun hc => huv hc.symm
    simp only [intraPairs, List.count_append, count_map_pair, List.count_cons, beq_iff_eq]
    by_cases hu : a = u
    · have hv : ¬ a = v := fun hc => huv (hu.symm.trans hc)
      simp only [hu, if_true, hv, if_false, if_neg huv, if_neg hvu]
      nlinarith [ih]
    · by_cases hv : a = v
      · simp only [hu, if_false, hv, if_true, if_neg huv, if_neg hvu]
        nlinarith [ih]
      · simp only [hu, if_false, hv]
        nlinarith [ih]

theorem sum_map_ite_eq {α : Type} [DecidableEq α] (l : List α) (c : α) (g : α → ℕ)
    (hnd : l.Nodup) :
    (l.map (fun k => if k = c then g k else 0)).sum = if c ∈ l then g c else 0 := by
  induction l with
  | nil => simp
  | cons a l ih =>
    have hnd' : l.Nodup := (List.nodup_cons.mp hnd).2
    by_cases h : a = c
    · subst h
      have hnotmem : a ∉ l := (List.nodup_cons.mp hnd).1
      have hzero : (l.map (fun k => if k = a then g k else 0)).sum = 0 := by
        refine List.sum_eq_zero ?_
        intro x hx
        rcases List.mem_map.mp hx with ⟨k, hk, hkx⟩
        have : ¬ k = a := fun hc => hnotmem (hc ▸ hk)
        simpa [this] using hkx.symm
      simp [hzero]
    · have h' : ¬ c = a := fun hc => h hc.symm
      simp [h, h', ih hnd']

/-! Geometry of the 26-neighbourhood. -/

theorem mem_neighborOffsets (x y z : ℤ) :
    ((x, y, z) : CellKey) ∈ neighborOffsets ↔
      (x.natAbs ≤ 1 ∧ y.natAbs ≤ 1 ∧ z.natAbs ≤ 1 ∧ ¬(x = 0 ∧ y = 0 ∧ z = 0)) := by
  constructor
  · intro h
    obtain ⟨hmem, hneb⟩ := List.mem_filter.mp h
    have hne : ¬(x = 0 ∧ y = 0 ∧ z = 0) := by
      intro hc
      simp [hc.1, hc.2.1, hc.2.2] at hneb
    obtain ⟨dx, hdx, h2⟩ := List.mem_flatMap.mp hmem
    obtain ⟨dy, hdy, h3⟩ := List.mem_flatMap.mp h2
    obtain ⟨dz, hdz, h4⟩ := List.mem_map.mp h3
    have e1 : dx = x := congrArg Prod.fst h4
    have e2 : dy = y := congrArg (fun p : CellKey => p.2.1) h4
    have e3 : dz = z := congrArg (fun p : CellKey => p.2.2) h4
    subst e1 e2 e3
    have hdx' : dx = -1 ∨ dx = 0 ∨ dx = 1 := by simpa using hdx
    have hdy' : dy = -1 ∨ dy = 0 ∨ dy = 1 := by simpa using hdy
    have hdz' : dz = -1 ∨ dz = 0 ∨ dz = 1 := by simpa using hdz
    refine ⟨?_, ?_, ?_, hne⟩
    · rcases hdx' with rfl | rfl | rfl <;> decide
    · rcases hdy' with rfl | rfl | rfl <;> decide
    · rcases hdz' with rfl | rfl | rfl <;> decide
  · rintro ⟨hx, hy, hz, hne⟩
    apply List.mem_filter.mpr
    refine ⟨?_, ?_⟩
    · apply List.mem_flatMap.mpr
      refine ⟨x, by simp only [List.mem_cons, List.mem_singleton]; omega, ?_⟩
      apply List.mem_flatMap.mpr
      refine ⟨y, by simp only [List.mem_cons, List.mem_singleton]; omega, ?_⟩
      apply List.mem_map.mpr
      exact ⟨z, by simp only [List.mem_cons, List.mem_singleton]; omega, rfl⟩
    · simp only [ne_eq, Prod.mk.injEq, decide_not, Bool.not_eq_eq_eq_not, Bool.not_true,
        decide_eq_false_iff_not]
      exact hne

theorem mem_getNeighboringCells (c1 c2 c3 d1 d2 d3 : ℤ) :
    ((d1, d2, d3) : CellKey) ∈ getNeighboringCells (c1, c2, c3) ↔
      ((d1 - c1).natAbs ≤ 1 ∧ (d2 - c2).natAbs ≤ 1 ∧ (d3 - c3).natAbs ≤ 1 ∧
        ¬(d1 = c1 ∧ d2 = c2 ∧ d3 = c3)) := by
  constructor
  · intro h
    obtain ⟨o, ho, heq⟩ := List.mem_map.mp h
    obtain ⟨o1, o2, o3⟩ := o
    rw [mem_neighborOffsets] at ho
    obtain ⟨ha, hb, hc, hne⟩ := ho
    have e1 : c1 + o1 = d1 := congrArg Prod.fst heq
    have e2 : c2 + o2 = d2 := congrArg (fun p : CellKey => p.2.1) heq
    have e3 : c3 + o3 = d3 := congrArg (fun p : CellKey => p.2.2) heq
    refine ⟨by omega, by omega, by omega, ?_⟩
    rintro ⟨f1, f2, f3⟩
    exact hne ⟨by omega, by omega, by omega⟩
  · rintro ⟨h1, h2, h3, hne⟩
    apply List.mem_map.mpr
    refine ⟨(d1 - c1, d2 - c2, d3 - c3), ?_, ?_⟩
    · rw [mem_neighborOffsets]
      refine ⟨h1, h2, h3, ?_⟩
      rintro ⟨f1, f2, f3⟩
      exact hne ⟨by omega, by omega, by omega⟩
    · show (c1 + (d1 - c1), c2 + (d2 - c2), c3 + (d3 - c3)) = (d1, d2, d3)
      rw [Prod.mk.injEq, Prod.mk.injEq]
      exact ⟨by omega, by omega, by omega⟩

theorem neighborOffsets_nodup : neighborOffsets.Nodup := by decide

theorem getNeighboringCells_nodup (c : CellKey) : (getNeighboringCells c).Nodup := by
  refine List.Nodup.map ?_ neighborOffsets_nodup
  rintro ⟨a1, a2, a3⟩ ⟨b1, b2, b3⟩ h
  simp only [Prod.mk.injEq] at h ⊢
  omega

theorem self_not_mem_getNeighboringCells (c : CellKey) : c ∉ getNeighboringCells c := by
  obtain ⟨c1, c2, c3⟩ := c
  rw [mem_getNeighboringCells]
  intro h
  exact h.2.2.2 ⟨rfl, rfl, rfl⟩

theorem getNeighboringCells_symm (c d : CellKey) :
    d ∈ getNeighboringCells c ↔ c ∈ getNeighboringCells d := by
  obtain ⟨c1, c2, c3⟩ := c
  obtain ⟨d1, d2, d3⟩ := d
  rw [mem_getNeighboringCells, mem_getNeighboringCells]
  constructor <;> rintro ⟨h1, h2, h3, hne⟩ <;>
    refine ⟨by omega, by omega, by omega, fun hc => hne (by omega)⟩

/-! The bucket contents of `buildHash`: each live body index sits exactly
once, in the bucket of its own cell key. -/

theorem count_snd_filter_fst (ps : List (CellKey × Nat)) (k : CellKey) (i : Nat) :
    ((ps.filter (fun p => p.1 = k)).map Prod.snd).count i = ps.count (k, i) := by
  induction ps with
  | nil => simp
  | cons p ps ih =>
    obtain ⟨pa, pb⟩ := p
    by_cases h1 : pa = k <;> by_cases h2 : pb = i <;>
      simp [List.filter_cons, List.count_cons, h1, h2, ih, beq_iff_eq, Prod.mk.injEq]

theorem cellPairs_snd (cellSize : ℚ) (bodies : List Body) :
    (cellPairs cellSize bodies).map Prod.snd = List.range bodies.length := by
  rw [cellPairs, List.map_map]
  have hcomp : Prod.snd ∘ (fun ib : Nat × Body =>
      (getCellKey cellSize ib.2.position, ib.1)) = Prod.fst := rfl
  rw [hcomp, List.enum_map_fst]

theorem cellPairs_nodup (cellSize : ℚ) (bodies : List Body) :
    (cellPairs cellSize bodies).Nodup :=
  List.Nodup.of_map Prod.snd
    (by rw [cellPairs_snd]; exact List.nodup_range _)

theorem mem_cellPairs {cellSize : ℚ} {bodies : List Body} {k : CellKey} {i : Nat} :
    (k, i) ∈ cellPairs cellSize bodies ↔
      ∃ b, bodies.get? i = some b ∧ k = getCellKey cellSize b.position := by
  rw [cellPairs]
  simp only [List.mem_map, Prod.mk.injEq]
  constructor
  · rintro ⟨⟨j, b⟩, hmem, hk, hj⟩
    subst hj
    have hget := List.mem_enum_iff_getElem?.mp hmem
    exact ⟨b, by simpa [List.get?_eq_getElem?] using hget, hk.symm⟩
  · rintro ⟨b, hb, hk⟩
    refine ⟨(i, b), ?_, hk.symm, rfl⟩
    exact List.mem_enum_iff_getElem?.mpr (by simpa [List.get?_eq_getElem?] using hb)

theorem nodup_count_eq_one {α : Type} [BEq α] [LawfulBEq α] {a : α} {l : List α}
    (hnd : l.Nodup) (hmem : a ∈ l) : l.count a = 1 := by
  induction l with
  | nil => simp at hmem
  | cons b l ih =>
    obtain ⟨hb, hnd'⟩ := List.nodup_cons.mp hnd
    rcases List.mem_cons.mp hmem with rfl | htail
    · rw [List.count_cons, List.count_eq_zero_of_not_mem hb]
      simp
    · have hba : ¬ b = a := fun hc => hb (hc ▸ htail)
      rw [List.count_cons, ih hnd' htail]
      simp [hba]

theorem buildHash_bucket_count (cellSize : ℚ) {bodies : List Body} (k : CellKey)
    {i : Nat} {b : Body} (hb : bodies.get? i = some b) :
    (hashLookup (buildHash cellSize bodies) k).count i =
      if k = getCellKey cellSize b.position then 1 else 0 := by
  rw [buildHash, hashLookup_hashOfPairs, count_snd_filter_fst]
  by_cases hk : k = getCellKey cellSize b.position
  · rw [if_pos hk]
    exact nodup_count_eq_one (cellPairs_nodup cellSize bodies)
      (mem_cellPairs.mpr ⟨b, hb, hk⟩)
  · rw [if_neg hk]
    apply List.count_eq_zero_of_not_mem
    intro hmem
    obtain ⟨b', hb', hk'⟩ := mem_cellPairs.mp hmem
    rw [hb] at hb'
    injection hb' with e
    exact hk (e ▸ hk')

theorem cell_mem_hashKeys {cellSize : ℚ} {bodies : List Body} {i : Nat} {b : Body}
    (hb : bodies.get? i = some b) :
    getCellKey cellSize b.position ∈ hashKeys (buildHash cellSize bodies) := by
  apply mem_hashKeys_of_lookup_ne_nil
  intro hnil
  have hcnt := buildHash_bucket_count cellSize (getCellKey cellSize b.position) hb
  rw [hnil, if_pos rfl] at hcnt
  simp at hcnt

theorem buildHash_keys_nodup (cellSize : ℚ) (bodies : List Body) :
    (hashKeys (buildHash cellSize bodies)).Nodup :=
  hashKeys_nodup_hashOfPairs (cellPairs cellSize bodies)

/-! The pair-visiting discipline of `calculateForces` over a freshly built
hash: how often each ordered index pair is handed to
`calculateForceBetween`. -/

theorem count_forcePairs_eq_sum_over_keys (hash : SpatialHash)
    (hnd : (hashKeys hash).Nodup) (w : Nat × Nat) :
    (forcePairs hash).count w =
      ((hashKeys hash).map (fun k =>
        (intraPairs (hashLookup hash k)).count w +
          ((getNeighboringCells k).map (fun nb =>
            (crossPairs (hashLookup hash k) (hashLookup hash nb)).count w)).sum)).sum := by
  rw [forcePairs, List.count_flatMap]
  have hpoint : ∀ cb ∈ hash,
      (List.count w ∘ fun cb : CellKey × List Nat =>
        intraPairs cb.2 ++ (getNeighboringCells cb.1).flatMap
          (fun nb => crossPairs cb.2 (hashLookup hash nb))) cb =
      ((fun k => (intraPairs (hashLookup hash k)).count w +
        ((getNeighboringCells k).map (fun nb =>
          (crossPairs (hashLookup hash k) (hashLookup hash nb)).count w)).sum) ∘
        Prod.fst) cb := by
    intro cb hcb
    have hentry : hashLookup hash cb.1 = cb.2 := hashLookup_entry hnd hcb
    simp only [Function.comp_apply, List.count_append, List.count_flatMap, hentry,
      Function.comp_def]
  rw [List.map_congr_left hpoint, ← List.map_map]
  rfl

theorem forcePairs_buildHash_count (cellSize : ℚ) (bodies : List Body) {u v : Nat}
    {bu bv : Body} (hu : bodies.get? u = some bu) (hv : bodies.get? v = some bv)
    (huv : u ≠ v) :
    (forcePairs (buildHash cellSize bodies)).count (u, v) +
      (forcePairs (buildHash cellSize bodies)).count (v, u) =
      if getCellKey cellSize bu.position = getCellKey cellSize bv.position then 1
      else if getCellKey cellSize bv.position ∈
          getNeighboringCells (getCellKey cellSize bu.position) then 2
      else 0 := by
  have hnd := buildHash_keys_nodup cellSize bodies
  have hcntu : ∀ k, (hashLookup (buildHash cellSize bodies) k).count u =
      if k = getCellKey cellSize bu.position then 1 else 0 :=
    fun k => buildHash_bucket_count cellSize k hu
  have hcntv : ∀ k, (hashLookup (buildHash cellSize bodies) k).count v =
      if k = getCellKey cellSize bv.position then 1 else 0 :=
    fun k => buildHash_bucket_count cellSize k hv
  have hcumem : getCellKey cellSize bu.position ∈ hashKeys (buildHash cellSize bodies) :=
    cell_mem_hashKeys hu
  have hcvmem : getCellKey cellSize bv.position ∈ hashKeys (buildHash cellSize bodies) :=
    cell_mem_hashKeys hv
  rw [count_forcePairs_eq_sum_over_keys _ hnd, count_forcePairs_eq_sum_over_keys _ hnd,
    ← List.sum_map_add]
  have hkey : ∀ k,
      ((intraPairs (hashLookup (buildHash cellSize bodies) k)).count (u, v) +
        ((getNeighboringCells k).map (fun nb =>
          (crossPairs (hashLookup (buildHash cellSize bodies) k)
            (hashLookup (buildHash cellSize bodies) nb)).count (u, v))).sum) +
      ((intraPairs (hashLookup (buildHash cellSize bodies) k)).count (v, u) +
        ((getNeighboringCells k).map (fun nb =>
          (crossPairs (hashLookup (buildHash cellSize bodies) k)
            (hashLookup (buildHash cellSize bodies) nb)).count (v, u))).sum) =
      (if k = getCellKey cellSize bu.position then
        (if k = getCellKey cellSize bv.position then 1 else 0) else 0) +
      ((if k = getCellKey cellSize bu.position then
        (if getCellKey cellSize bv.position ∈ getNeighboringCells k then 1 else 0) else 0) +
       (if k = getCellKey cellSize bv.position then
        (if getCellKey cellSize bu.position ∈ getNeighboringCells k then 1 else 0) else 0)) := by
    intro k
    have hintra := count_intraPairs_add (hashLookup (buildHash cellSize bodies) k) u v huv
    have hcr1 : ((getNeighboringCells k).map (fun nb =>
        (crossPairs (hashLookup (buildHash cellSize bodies) k)
          (hashLookup (buildHash cellSize bodies) nb)).count (u, v))).sum =
        (hashLookup (buildHash cellSize bodies) k).count u *
          (if getCellKey cellSize bv.position ∈ getNeighboringCells k then 1 else 0) := by
      rw [List.map_congr_left (fun nb _ => count_crossPairs
        (hashLookup (buildHash cellSize bodies) k)
        (hashLookup (buildHash cellSize bodies) nb) u v)]
      rw [List.sum_map_mul_left, List.map_congr_left (fun nb _ => hcntv nb),
        sum_map_ite_eq _ _ (fun _ => 1) (getNeighboringCells_nodup k)]
      convert rfl
    have hcr2 : ((getNeighboringCells k).map (fun nb =>
        (crossPairs (hashLookup (buildHash cellSize bodies) k)
          (hashLookup (buildHash cellSize bodies) nb)).count (v, u))).sum =
        (hashLookup (buildHash cellSize bodies) k).count v *
          (if getCellKey cellSize bu.position ∈ getNeighboringCells k then 1 else 0) := by
      rw [List.map_congr_left (fun nb _ => count_crossPairs
        (hashLookup (buildHash cellSize bodies) k)
        (hashLookup (buildHash cellSize bodies) nb) v u)]
      rw [List.sum_map_mul_left, List.map_congr_left (fun nb _ => hcntu nb),
        sum_map_ite_eq _ _ (fun _ => 1) (getNeighboringCells_nodup k)]
      convert rfl
    rw [hcr1, hcr2]
    rw [hcntu k, hcntv k] at hintra
    rw [hcntu k, hcntv k]
    split_ifs at hintra ⊢ <;> omega
  rw [List.map_congr_left (fun k _ => hkey k), List.sum_map_add, List.sum_map_add]
  rw [sum_map_ite_eq _ _ _ hnd, sum_map_ite_eq _ _ _ hnd, sum_map_ite_eq _ _ _ hnd,
    if_pos hcumem, if_pos hcumem, if_pos hcvmem]
  by_cases hc : getCellKey cellSize bu.position = getCellKey cellSize bv.position
  · rw [if_pos hc]
    simp [hc, self_not_mem_getNeighboringCells]
  · rw [if_neg hc]
    by_cases hadj : getCellKey cellSize bv.position ∈
        getNeighboringCells (getCellKey cellSize bu.position)
    · have hadj' : getCellKey cellSize bu.position ∈
          getNeighboringCells (getCellKey cellSize bv.position) :=
        (getNeighboringCells_symm _ _).mp hadj
      simp [hadj, hadj', hc]
    · have hadj' : getCellKey cellSize bu.position ∉
          getNeighboringCells (getCellKey cellSize bv.position) :=
        fun h => hadj ((getNeighboringCells_symm _ _).mpr h)
      simp [hadj, hadj', hc]

theorem div_lt_div_add_one {x y h : ℚ} (hh : 0 < h) (hxy : x < y + h) :
    x / h < y / h + 1 := by
  have hdiv : x / h < (y + h) / h := by
    rw [div_lt_div_iff hh hh]
    nlinarith
  have hsplit : (y + h) / h = y / h + 1 := by
    rw [add_div, div_self hh.ne']
  linarith [hsplit ▸ hdiv]

theorem floor_le_floor_add_one {x y h : ℚ} (hh : 0 < h) (hxy : x < y + h) :
    ⌊x / h⌋ ≤ ⌊y / h⌋ + 1 := by
  have h1 : ⌊x / h⌋ ≤ ⌊y / h + 1⌋ := Int.floor_le_floor (div_lt_div_add_one hh hxy).le
  rw [Int.floor_add_one] at h1
  exact h1

theorem floor_div_diff_le_one {x y h : ℚ} (hh : 0 < h)
    (hxy : (x - y) * (x - y) < h * h) : (⌊x / h⌋ - ⌊y / h⌋).natAbs ≤ 1 := by
  have habs : |x - y| < h := by
    have hsq : (x - y) ^ 2 < h ^ 2 := by
      have e1 : (x - y) ^ 2 = (x - y) * (x - y) := by ring
      have e2 : h ^ 2 = h * h := by ring
      rw [e1, e2]
      exact hxy
    exact abs_lt_of_sq_lt_sq hsq hh.le
  obtain ⟨hlo, hhi⟩ := abs_lt.mp habs
  have h1 : ⌊x / h⌋ ≤ ⌊y / h⌋ + 1 := floor_le_floor_add_one hh (by linarith)
  have h2 : ⌊y / h⌋ ≤ ⌊x / h⌋ + 1 := floor_le_floor_add_one hh (by linarith)
  omega

theorem list_set_get_self {α : Type} (l : List α) (n : Nat) (a : α)
    (h : l.get? n = some a) : l.set n a = l := by
  induction l generalizing n with
  | nil => simp at h
  | cons b l ih =>
    cases n with
    | zero =>
      simp only [List.get?] at h
      injection h with h
      rw [h]
      rfl
    | succ n =>
      simp only [List.get?] at h
      simp [List.set, ih n h]

theorem map_list_set {α β : Type} (f : α → β) (l : List α) (n : Nat) (a : α) :
    (l.set n a).map f = (l.map f).set n (f a) := by
  induction l generalizing n with
  | nil => rfl
  | cons b l ih =>
    cases n with
    | zero => rfl
    | succ n => simp [List.set, ih n]

theorem calculateForceBetween_positions (grav soft : ℚ) (s : ForceState)
    (ij : Nat × Nat) :
    ((calculateForceBetween grav soft s ij).bodies).map Body.position =
      s.bodies.map Body.position := by
  rw [calculateForceBetween]
  rcases h1 : s.bodies.get? ij.1 with _ | b1 <;>
    rcases h2 : s.bodies.get? ij.2 with _ | b2 <;> simp only [h1, h2]
  by_cases hd : MathUtils.magnitude (MathUtils.subtract b2.position b1.position) < soft
  · simp [hd]
  · simp only [hd, if_false]
    rw [map_list_set, map_list_set]
    have e1 : (s.bodies.map Body.position).get? ij.1 = some b1.position := by
      rw [List.get?_map, h1]
      rfl
    have hfirst : (s.bodies.map Body.position).set ij.1 b1.position =
        s.bodies.map Body.position := list_set_get_self _ _ _ e1
    rw [hfirst]
    have e2 : (s.bodies.map Body.position).get? ij.2 = some b2.position := by
      rw [List.get?_map, h2]
      rfl
    exact list_set_get_self _ _ _ e2

theorem passesGuard_congr {bodies bodies' : List Body}
    (hmap : bodies.map Body.position = bodies'.map Body.position) (soft : ℚ)
    (ij : Nat × Nat) : passesGuard soft bodies ij = passesGuard soft bodies' ij := by
  have g1 : (bodies.get? ij.1).map Body.position =
      (bodies'.get? ij.1).map Body.position := by
    rw [← List.get?_map, ← List.get?_map, hmap]
  have g2 : (bodies.get? ij.2).map Body.position =
      (bodies'.get? ij.2).map Body.position := by
    rw [← List.get?_map, ← List.get?_map, hmap]
  rw [passesGuard, passesGuard]
  rcases e1 : bodies.get? ij.1 with _ | b1 <;>
    rcases e1' : bodies'.get? ij.1 with _ | b1' <;>
      rcases e2 : bodies.get? ij.2 with _ | b2 <;>
        rcases e2' : bodies'.get? ij.2 with _ | b2' <;>
          rw [e1, e1'] at g1 <;> rw [e2, e2'] at g2 <;> simp_all

theorem calculateForceBetween_counter (grav soft : ℚ) (s : ForceState)
    (ij : Nat × Nat) :
    (calculateForceBetween grav soft s ij).forceCalculations =
      s.forceCalculations + (if passesGuard soft s.bodies ij then 1 else 0) := by
  rw [calculateForceBetween, passesGuard]
  rcases h1 : s.bodies.get? ij.1 with _ | b1 <;>
    rcases h2 : s.bodies.get? ij.2 with _ | b2 <;> simp only [h1, h2]
  · simp
  · simp
  · simp
  · by_cases hd : MathUtils.magnitude (MathUtils.subtract b2.position b1.position) < soft <;>
      simp [hd]

theorem foldl_calculateForceBetween_counter (grav soft : ℚ)
    (pairs : List (Nat × Nat)) (s : ForceState) :
    (pairs.foldl (calculateForceBetween grav soft) s).forceCalculations =
      s.forceCalculations + pairs.countP (passesGuard soft s.bodies) := by
  induction pairs generalizing s with
  | nil => simp
  | cons p ps ih =>
    rw [List.foldl_cons, ih, calculateForceBetween_counter, List.countP_cons]
    have hguard : ps.countP
        (passesGuard soft ((calculateForceBetween grav soft s p).bodies)) =
        ps.countP (passesGuard soft s.bodies) :=
      List.countP_congr (fun q _ => by
        rw [passesGuard_congr (calculateForceBetween_positions grav soft s p) soft q])
    rw [hguard]
    omega

theorem resetAccelerations_acceleration (bodies : List Body) :
    ∀ b ∈ resetAccelerations bodies, b.acceleration = ⟨0, 0, 0⟩ := by
  intro b hb
  rcases List.mem_map.mp hb with ⟨a, _, rfl⟩
  rfl

theorem resetAccelerations_positions (bodies : List Body) :
    (resetAccelerations bodies).map Body.position = bodies.map Body.position := by
  rw [resetAccelerations, List.map_map]
  exact List.map_congr_left (fun b _ => rfl)

theorem calculateForces_counter (grav soft : ℚ) (bodies : List Body)
    (hash : SpatialHash) :
    (calculateForces grav soft bodies hash).forceCalculations =
      (forcePairs hash).countP (passesGuard soft bodies) := by
  rw [calculateForces, foldl_calculateForceBetween_counter]
  simp only [Nat.zero_add]
  exact List.countP_congr (fun q _ => by
    rw [passesGuard_congr (resetAccelerations_positions bodies) soft q])

/-- C4 (amended): `calculateForces` resets every body's acceleration to
zero and iterates the engine's *current* spatial hash — it does not
rebuild it.  Over the hash built from the bodies' current positions, each
unordered pair of distinct live bodies in the same cell is handed to
`calculateForceBetween` exactly once, and each unordered pair in distinct
neighbouring cells exactly twice (once in each direction, so those force
contributions are applied twice); the force-evaluation counter ends at
the number of visited ordered pairs that pass the softening guard. -/
theorem calculateForces_pair_discipline (grav soft cellSize : ℚ) (bodies : List Body)
    {u v : Nat} {bu bv : Body} (hu : bodies.get? u = some bu)
    (hv : bodies.get? v = some bv) (huv : u ≠ v) :
    (∀ b ∈ resetAccelerations bodies, b.acceleration = ⟨0, 0, 0⟩) ∧
    (calculateForces grav soft bodies (buildHash cellSize bodies)).forceCalculations =
      (forcePairs (buildHash cellSize bodies)).countP (passesGuard soft bodies) ∧
    ((forcePairs (buildHash cellSize bodies)).count (u, v) +
      (forcePairs (buildHash cellSize bodies)).count (v, u) =
      if getCellKey cellSize bu.position = getCellKey cellSize bv.position then 1
      else if getCellKey cellSize bv.position ∈
          getNeighboringCells (getCellKey cellSize bu.position) then 2
      else 0) :=
  ⟨resetAccelerations_acceleration bodies,
   calculateForces_counter grav soft bodies _,
   forcePairs_buildHash_count cellSize bodies hu hv huv⟩

/-- Witness for C4 at a concrete input: two unit-mass bodies in distinct
neighbouring cells of edge 1000. -/
theorem calculateForces_pair_discipline_witness :
    ([⟨0, 1, ⟨0, 0, 0⟩, ⟨0, 0, 0⟩, ⟨0, 0, 0⟩, 1⟩,
      ⟨1, 1, ⟨1500, 0, 0⟩, ⟨0, 0, 0⟩, ⟨0, 0, 0⟩, 1⟩] : List Body).get? 0 =
      some ⟨0, 1, ⟨0, 0, 0⟩, ⟨0, 0, 0⟩, ⟨0, 0, 0⟩, 1⟩ ∧
    (0 : Nat) ≠ 1 ∧
    ((∀ b ∈ resetAccelerations
        [⟨0, 1, ⟨0, 0, 0⟩, ⟨0, 0, 0⟩, ⟨0, 0, 0⟩, 1⟩,
         ⟨1, 1, ⟨1500, 0, 0⟩, ⟨0, 0, 0⟩, ⟨0, 0, 0⟩, 1⟩], b.acceleration = ⟨0, 0, 0⟩) ∧
    (calculateForces MathUtils.G (1 / 1000000)
        [⟨0, 1, ⟨0, 0, 0⟩, ⟨0, 0, 0⟩, ⟨0, 0, 0⟩, 1⟩,
         ⟨1, 1, ⟨1500, 0, 0⟩, ⟨0, 0, 0⟩, ⟨0, 0, 0⟩, 1⟩]
        (buildHash 1000
          [⟨0, 1, ⟨0, 0, 0⟩, ⟨0, 0, 0⟩, ⟨0, 0, 0⟩, 1⟩,
           ⟨1, 1, ⟨1500, 0, 0⟩, ⟨0, 0, 0⟩, ⟨0, 0, 0⟩, 1⟩])).forceCalculations =
      (forcePairs (buildHash 1000
          [⟨0, 1, ⟨0, 0, 0⟩, ⟨0, 0, 0⟩, ⟨0, 0, 0⟩, 1⟩,
           ⟨1, 1, ⟨1500, 0, 0⟩, ⟨0, 0, 0⟩, ⟨0, 0, 0⟩, 1⟩])).countP
        (passesGuard (1 / 1000000)
          [⟨0, 1, ⟨0, 0, 0⟩, ⟨0, 0, 0⟩, ⟨0, 0, 0⟩, 1⟩,
           ⟨1, 1, ⟨1500, 0, 0⟩, ⟨0, 0, 0⟩, ⟨0, 0, 0⟩, 1⟩]) ∧
    ((forcePairs (buildHash 1000
          [⟨0, 1, ⟨0, 0, 0⟩, ⟨0, 0, 0⟩, ⟨0, 0, 0⟩, 1⟩,
           ⟨1, 1, ⟨1500, 0, 0⟩, ⟨0, 0, 0⟩, ⟨0, 0, 0⟩, 1⟩])).count (0, 1) +
      (forcePairs (buildHash 1000
          [⟨0, 1, ⟨0, 0, 0⟩, ⟨0, 0, 0⟩, ⟨0, 0, 0⟩, 1⟩,
           ⟨1, 1, ⟨1500, 0, 0⟩, ⟨0, 0, 0⟩, ⟨0, 0, 0⟩, 1⟩])).count (1, 0) =
      if getCellKey 1000 (⟨0, 0, 0⟩ : Vec3) = getCellKey 1000 (⟨1500, 0, 0⟩ : Vec3)
      then 1
      else if getCellKey 1000 (⟨1500, 0, 0⟩ : Vec3) ∈
          getNeighboringCells (getCellKey 1000 (⟨0, 0, 0⟩ : Vec3)) then 2
      else 0)) :=
  ⟨rfl, by decide,
    calculateForces_pair_discipline MathUtils.G (1 / 1000000) 1000
      [⟨0, 1, ⟨0, 0, 0⟩, ⟨0, 0, 0⟩, ⟨0, 0, 0⟩, 1⟩,
       ⟨1, 1, ⟨1500, 0, 0⟩, ⟨0, 0, 0⟩, ⟨0, 0, 0⟩, 1⟩]
      (show ([⟨0, 1, ⟨0, 0, 0⟩, ⟨0, 0, 0⟩, ⟨0, 0, 0⟩, 1⟩,
        ⟨1, 1, ⟨1500, 0, 0⟩, ⟨0, 0, 0⟩, ⟨0, 0, 0⟩, 1⟩] : List Body).get? 0 =
        some ⟨0, 1, ⟨0, 0, 0⟩, ⟨0, 0, 0⟩, ⟨0, 0, 0⟩, 1⟩ from rfl)
      (show ([⟨0, 1, ⟨0, 0, 0⟩, ⟨0, 0, 0⟩, ⟨0, 0, 0⟩, 1⟩,
        ⟨1, 1, ⟨1500, 0, 0⟩, ⟨0, 0, 0⟩, ⟨0, 0, 0⟩, 1⟩] : List Body).get? 1 =
        some ⟨1, 1, ⟨1500, 0, 0⟩, ⟨0, 0, 0⟩, ⟨0, 0, 0⟩, 1⟩ from rfl)
      (by decide)⟩

theorem floor_zero_div (h : ℚ) : ⌊(0 : ℚ) / h⌋ = 0 := by
  rw [zero_div, Int.floor_zero]

theorem floor_1500_div_1000 : ⌊(1500 : ℚ) / 1000⌋ = 1 :=
  Int.floor_eq_iff.mpr ⟨by norm_num, by norm_num⟩

theorem getCellKey_origin : getCellKey 1000 (⟨0, 0, 0⟩ : Vec3) = ((0, 0, 0) : CellKey) := by
  rw [getCellKey, floor_zero_div]

theorem getCellKey_1500 :
    getCellKey 1000 (⟨1500, 0, 0⟩ : Vec3) = ((1, 0, 0) : CellKey) := by
  rw [getCellKey, floor_zero_div, floor_1500_div_1000]

theorem buildHash_c4_eval :
    buildHash 1000 [⟨0, 1, ⟨0, 0, 0⟩, ⟨0, 0, 0⟩, ⟨0, 0, 0⟩, 1⟩,
      ⟨1, 1, ⟨1500, 0, 0⟩, ⟨0, 0, 0⟩, ⟨0, 0, 0⟩, 1⟩] =
      [(((0, 0, 0) : CellKey), [0]), (((1, 0, 0) : CellKey), [1])] := by
  rw [buildHash, cellPairs]
  simp only [List.enum, List.enumFrom, List.map_cons, List.map_nil, getCellKey_origin,
    getCellKey_1500]
  decide

theorem magnitude_1500 : MathUtils.magnitude ⟨1500, 0, 0⟩ = 1500 := by
  rw [MathUtils.magnitude]
  have harg : ((1500 : ℚ) * 1500 + 0 * 0 + 0 * 0) = 2250000 := by norm_num
  rw [harg]
  have hnum : (2250000 : ℚ).num = (1500 : ℤ) * 1500 := by norm_num [Rat.num_ofNat]
  have hden : (2250000 : ℚ).den = 1 * 1 := by norm_num [Rat.den_ofNat]
  rw [ratSqrt_eval hnum hden]
  norm_num

theorem magnitude_neg1500 : MathUtils.magnitude ⟨-1500, 0, 0⟩ = 1500 := by
  rw [MathUtils.magnitude]
  have harg : ((-1500 : ℚ) * (-1500) + 0 * 0 + 0 * 0) = 2250000 := by norm_num
  rw [harg]
  have hnum : (2250000 : ℚ).num = (1500 : ℤ) * 1500 := by norm_num [Rat.num_ofNat]
  have hden : (2250000 : ℚ).den = 1 * 1 := by norm_num [Rat.den_ofNat]
  rw [ratSqrt_eval hnum hden]
  norm_num

theorem normalize_1500 : MathUtils.normalize ⟨1500, 0, 0⟩ = ⟨1, 0, 0⟩ := by
  rw [MathUtils.normalize]
  simp only [magnitude_1500, MathUtils.divide]
  norm_num

theorem normalize_neg1500 : MathUtils.normalize ⟨-1500, 0, 0⟩ = ⟨-1, 0, 0⟩ := by
  rw [MathUtils.normalize]
  simp only [magnitude_neg1500, MathUtils.divide]
  norm_num

/-- C4 counterexample: with exactly one unordered pair of bodies present,
sitting in two distinct neighbouring cells, `calculateForces` over the
freshly built hash visits the pair twice — once in each direction — ends
the force-evaluation counter at 2, and accumulates exactly twice the
single-evaluation gravitational acceleration on each body.  This refutes
"each unordered pair in distinct neighboring cells exactly once (no
pair's force contribution is applied twice)". -/
theorem calculateForces_double_counts_neighbor_pair :
    forcePairs (buildHash 1000 [⟨0, 1, ⟨0, 0, 0⟩, ⟨0, 0, 0⟩, ⟨0, 0, 0⟩, 1⟩,
      ⟨1, 1, ⟨1500, 0, 0⟩, ⟨0, 0, 0⟩, ⟨0, 0, 0⟩, 1⟩]) = [(0, 1), (1, 0)] ∧
    (calculateForces MathUtils.G (1 / 1000000)
      [⟨0, 1, ⟨0, 0, 0⟩, ⟨0, 0, 0⟩, ⟨0, 0, 0⟩, 1⟩,
       ⟨1, 1, ⟨1500, 0, 0⟩, ⟨0, 0, 0⟩, ⟨0, 0, 0⟩, 1⟩]
      (buildHash 1000 [⟨0, 1, ⟨0, 0, 0⟩, ⟨0, 0, 0⟩, ⟨0, 0, 0⟩, 1⟩,
        ⟨1, 1, ⟨1500, 0, 0⟩, ⟨0, 0, 0⟩, ⟨0, 0, 0⟩, 1⟩])).forceCalculations = 2 ∧
    ((calculateForces MathUtils.G (1 / 1000000)
      [⟨0, 1, ⟨0, 0, 0⟩, ⟨0, 0, 0⟩, ⟨0, 0, 0⟩, 1⟩,
       ⟨1, 1, ⟨1500, 0, 0⟩, ⟨0, 0, 0⟩, ⟨0, 0, 0⟩, 1⟩]
      (buildHash 1000 [⟨0, 1, ⟨0, 0, 0⟩, ⟨0, 0, 0⟩, ⟨0, 0, 0⟩, 1⟩,
        ⟨1, 1, ⟨1500, 0, 0⟩, ⟨0, 0, 0⟩, ⟨0, 0, 0⟩, 1⟩])).bodies.map
      Body.acceleration) =
      [⟨2 * (MathUtils.G / (2250000 + 1 / 10 ^ 12)), 0, 0⟩,
       ⟨-(2 * (MathUtils.G / (2250000 + 1 / 10 ^ 12))), 0, 0⟩] := by
  have hforce : forcePairs (buildHash 1000
      [⟨0, 1, ⟨0, 0, 0⟩, ⟨0, 0, 0⟩, ⟨0, 0, 0⟩, 1⟩,
       ⟨1, 1, ⟨1500, 0, 0⟩, ⟨0, 0, 0⟩, ⟨0, 0, 0⟩, 1⟩]) = [(0, 1), (1, 0)] := by
    rw [buildHash_c4_eval]
    decide
  refine ⟨hforce, ?_, ?_⟩
  · rw [calculateForces_counter, hforce]
    have hg01 : passesGuard (1 / 1000000)
        [⟨0, 1, ⟨0, 0, 0⟩, ⟨0, 0, 0⟩, ⟨0, 0, 0⟩, 1⟩,
         ⟨1, 1, ⟨1500, 0, 0⟩, ⟨0, 0, 0⟩, ⟨0, 0, 0⟩, 1⟩] (0, 1) = true := by
      show decide (¬ (MathUtils.magnitude (MathUtils.subtract ⟨1500, 0, 0⟩ ⟨0, 0, 0⟩)
        < 1 / 1000000)) = true
      have hs : MathUtils.subtract (⟨1500, 0, 0⟩ : Vec3) ⟨0, 0, 0⟩ = ⟨1500, 0, 0⟩ := by
        rw [MathUtils.subtract]
        norm_num
      rw [hs, magnitude_1500]
      simp only [decide_eq_true_eq]
      norm_num
    have hg10 : passesGuard (1 / 1000000)
        [⟨0, 1, ⟨0, 0, 0⟩, ⟨0, 0, 0⟩, ⟨0, 0, 0⟩, 1⟩,
         ⟨1, 1, ⟨1500, 0, 0⟩, ⟨0, 0, 0⟩, ⟨0, 0, 0⟩, 1⟩] (1, 0) = true := by
      show decide (¬ (MathUtils.magnitude (MathUtils.subtract ⟨0, 0, 0⟩ ⟨1500, 0, 0⟩)
        < 1 / 1000000)) = true
      have hs : MathUtils.subtract (⟨0, 0, 0⟩ : Vec3) ⟨1500, 0, 0⟩ = ⟨-1500, 0, 0⟩ := by
        rw [MathUtils.subtract]
        norm_num
      rw [hs, magnitude_neg1500]
      simp only [decide_eq_true_eq]
      norm_num
    rw [List.countP_cons, List.countP_cons, List.countP_nil, hg01, hg10]
    decide
  · rw [calculateForces, hforce]
    have hreset : resetAccelerations
        [⟨0, 1, ⟨0, 0, 0⟩, ⟨0, 0, 0⟩, ⟨0, 0, 0⟩, 1⟩,
         ⟨1, 1, ⟨1500, 0, 0⟩, ⟨0, 0, 0⟩, ⟨0, 0, 0⟩, 1⟩] =
        [⟨0, 1, ⟨0, 0, 0⟩, ⟨0, 0, 0⟩, ⟨0, 0, 0⟩, 1⟩,
         ⟨1, 1, ⟨1500, 0, 0⟩, ⟨0, 0, 0⟩, ⟨0, 0, 0⟩, 1⟩] := rfl
    rw [hreset]
    have hs01 : MathUtils.subtract (⟨1500, 0, 0⟩ : Vec3) ⟨0, 0, 0⟩ = ⟨1500, 0, 0⟩ := by
      rw [MathUtils.subtract]
      norm_num
    have hs10 : MathUtils.subtract (⟨0, 0, 0⟩ : Vec3) ⟨1500, 0, 0⟩ = ⟨-1500, 0, 0⟩ := by
      rw [MathUtils.subtract]
      norm_num
    have hnotlt : ¬ ((1500 : ℚ) < 1 / 1000000) := by norm_num
    simp only [List.foldl_cons, List.foldl_nil, calculateForceBetween,
      List.get?_cons_zero, List.get?_cons_succ, hs01, hs10, magnitude_1500,
      magnitude_neg1500, normalize_1500, normalize_neg1500, MathUtils.multiply,
      MathUtils.divide, MathUtils.add, List.set, hnotlt, if_false]
    norm_num [MathUtils.G, Vec3.mk.injEq]

theorem floor_one_div_1000 : ⌊(1 : ℚ) / 1000⌋ = 0 :=
  Int.floor_eq_iff.mpr ⟨by norm_num, by norm_num⟩

theorem getCellKey_unit_x :
    getCellKey 1000 (⟨1, 0, 0⟩ : Vec3) = ((0, 0, 0) : CellKey) := by
  rw [getCellKey, floor_zero_div, floor_one_div_1000]

/-- C1: refuted as stated (the code, not the claim, is at fault).  With
the euler method selected (verlet behaves identically in this respect),
`update` never invokes the Force Model: `calculateForces` is reachable
only through the rk4 branch's `derivativeFunction`.  Two unit masses at
rest at distance 1 therefore keep zero acceleration and zero velocity
through an `update (1/60)` tick — gravity never acts — although
`calculateForces` evaluated on the same current positions yields nonzero
accelerations on both bodies. -/
theorem update_euler_skips_force_model :
    (PhysicsEngine.update
      { PhysicsEngine.init with
          integrationMethod := "euler",
          bodies := [⟨0, 1, ⟨0, 0, 0⟩, ⟨0, 0, 0⟩, ⟨0, 0, 0⟩, 1⟩,
            ⟨1, 1, ⟨1, 0, 0⟩, ⟨0, 0, 0⟩, ⟨0, 0, 0⟩, 1⟩],
          spatialHash := buildHash 1000
            [⟨0, 1, ⟨0, 0, 0⟩, ⟨0, 0, 0⟩, ⟨0, 0, 0⟩, 1⟩,
             ⟨1, 1, ⟨1, 0, 0⟩, ⟨0, 0, 0⟩, ⟨0, 0, 0⟩, 1⟩] }
      (1 / 60)).map (fun e => e.bodies.map (fun b => (b.velocity, b.acceleration))) =
      some [(⟨0, 0, 0⟩, ⟨0, 0, 0⟩), (⟨0, 0, 0⟩, ⟨0, 0, 0⟩)] ∧
    (calculateForces MathUtils.G (1 / 1000000)
      [⟨0, 1, ⟨0, 0, 0⟩, ⟨0, 0, 0⟩, ⟨0, 0, 0⟩, 1⟩,
       ⟨1, 1, ⟨1, 0, 0⟩, ⟨0, 0, 0⟩, ⟨0, 0, 0⟩, 1⟩]
      (buildHash 1000 [⟨0, 1, ⟨0, 0, 0⟩, ⟨0, 0, 0⟩, ⟨0, 0, 0⟩, 1⟩,
        ⟨1, 1, ⟨1, 0, 0⟩, ⟨0, 0, 0⟩, ⟨0, 0, 0⟩, 1⟩])).bodies.map Body.acceleration ≠
      [⟨0, 0, 0⟩, ⟨0, 0, 0⟩] := by
  constructor
  · have hcond : ¬ ((1 : ℚ) / 60 * 1 ≤ 0) := by norm_num
    simp only [PhysicsEngine.update, PhysicsEngine.init, hcond, if_false,
      PhysicsEngine.updateEuler, PhysicsEngine.postIntegration,
      PhysicsEngine.updateSpatialHash, PhysicsEngine.trackEnergyConservation,
      PhysicsEngine.handleCollisions, MathUtils.add, MathUtils.multiply,
      List.map_cons, List.map_nil, Option.map_some]
    norm_num [Vec3.mk.injEq, Prod.mk.injEq]
  · have hhash : buildHash 1000
        [⟨0, 1, ⟨0, 0, 0⟩, ⟨0, 0, 0⟩, ⟨0, 0, 0⟩, 1⟩,
         ⟨1, 1, ⟨1, 0, 0⟩, ⟨0, 0, 0⟩, ⟨0, 0, 0⟩, 1⟩] =
        [(((0, 0, 0) : CellKey), [0, 1])] := by
      rw [buildHash, cellPairs]
      simp only [List.enum, List.enumFrom, List.map_cons, List.map_nil,
        getCellKey_origin, getCellKey_unit_x]
      decide
    have hforce : forcePairs (buildHash 1000
        [⟨0, 1, ⟨0, 0, 0⟩, ⟨0, 0, 0⟩, ⟨0, 0, 0⟩, 1⟩,
         ⟨1, 1, ⟨1, 0, 0⟩, ⟨0, 0, 0⟩, ⟨0, 0, 0⟩, 1⟩]) = [(0, 1)] := by
      rw [hhash]
      decide
    rw [calculateForces, hforce]
    have hs01 : MathUtils.subtract (⟨1, 0, 0⟩ : Vec3) ⟨0, 0, 0⟩ = ⟨1, 0, 0⟩ := by
      rw [MathUtils.subtract]
      norm_num
    have hnotlt : ¬ ((1 : ℚ) < 1 / 1000000) := by norm_num
    have hreset : resetAccelerations
        [⟨0, 1, ⟨0, 0, 0⟩, ⟨0, 0, 0⟩, ⟨0, 0, 0⟩, 1⟩,
         ⟨1, 1, ⟨1, 0, 0⟩, ⟨0, 0, 0⟩, ⟨0, 0, 0⟩, 1⟩] =
        [⟨0, 1, ⟨0, 0, 0⟩, ⟨0, 0, 0⟩, ⟨0, 0, 0⟩, 1⟩,
         ⟨1, 1, ⟨1, 0, 0⟩, ⟨0, 0, 0⟩, ⟨0, 0, 0⟩, 1⟩] := rfl
    rw [hreset]
    simp only [List.foldl_cons, List.foldl_nil, calculateForceBetween,
      List.get?_cons_zero, List.get?_cons_succ, hs01, magnitude_unit_x,
      normalize_unit_x, MathUtils.multiply, MathUtils.divide, MathUtils.add,
      List.set, hnotlt, if_false, List.map_cons, List.map_nil]
    norm_num [MathUtils.G, Vec3.mk.injEq]

/-- C7: confirmed.  For two distinct live bodies whose Euclidean
separation is below one cell edge length (stated on squares:
`distanceSquared < cellSize²`, equivalent for the non-negative distance
and edge), each floor-divided cell coordinate differs by at most 1, so
their cell keys are equal or neighbouring, and the pair appears in the
sequence of pairs the spatially pruned force evaluation visits over the
hash built from the bodies' current positions — no false negatives within
one cell edge length. -/
theorem close_pair_is_considered (cellSize : ℚ) (bodies : List Body) {u v : Nat}
    {bu bv : Body} (hu : bodies.get? u = some bu) (hv : bodies.get? v = some bv)
    (huv : u ≠ v) (hcs : 0 < cellSize)
    (hclose : MathUtils.distanceSquared bu.position bv.position <
      cellSize * cellSize) :
    (getCellKey cellSize bu.position = getCellKey cellSize bv.position ∨
      getCellKey cellSize bv.position ∈
        getNeighboringCells (getCellKey cellSize bu.position)) ∧
    ((u, v) ∈ forcePairs (buildHash cellSize bodies) ∨
      (v, u) ∈ forcePairs (buildHash cellSize bodies)) := by
  have hxs : (bu.position.x - bv.position.x) * (bu.position.x - bv.position.x) <
      cellSize * cellSize := by
    rw [MathUtils.distanceSquared] at hclose
    nlinarith [mul_self_nonneg (bu.position.y - bv.position.y),
      mul_self_nonneg (bu.position.z - bv.position.z)]
  have hys : (bu.position.y - bv.position.y) * (bu.position.y - bv.position.y) <
      cellSize * cellSize := by
    rw [MathUtils.distanceSquared] at hclose
    nlinarith [mul_self_nonneg (bu.position.x - bv.position.x),
      mul_self_nonneg (bu.position.z - bv.position.z)]
  have hzs : (bu.position.z - bv.position.z) * (bu.position.z - bv.position.z) <
      cellSize * cellSize := by
    rw [MathUtils.distanceSquared] at hclose
    nlinarith [mul_self_nonneg (bu.position.x - bv.position.x),
      mul_self_nonneg (bu.position.y - bv.position.y)]
  have hax := floor_div_diff_le_one hcs hxs
  have hay := floor_div_diff_le_one hcs hys
  have haz := floor_div_diff_le_one hcs hzs
  have hcells : getCellKey cellSize bu.position = getCellKey cellSize bv.position ∨
      getCellKey cellSize bv.position ∈
        getNeighboringCells (getCellKey cellSize bu.position) := by
    by_cases heq : getCellKey cellSize bu.position = getCellKey cellSize bv.position
    · exact Or.inl heq
    · refine Or.inr ?_
      rw [getCellKey, getCellKey] at heq ⊢
      rw [mem_getNeighboringCells]
      refine ⟨by omega, by omega, by omega, ?_⟩
      rintro ⟨f1, f2, f3⟩
      exact heq (by rw [Prod.mk.injEq, Prod.mk.injEq]; omega)
  refine ⟨hcells, ?_⟩
  have hcount := forcePairs_buildHash_count cellSize bodies hu hv huv
  have hpos : 0 < (forcePairs (buildHash cellSize bodies)).count (u, v) +
      (forcePairs (buildHash cellSize bodies)).count (v, u) := by
    rw [hcount]
    rcases hcells with heq | hadj
    · rw [if_pos heq]
      omega
    · by_cases heq : getCellKey cellSize bu.position = getCellKey cellSize bv.position
      · rw [if_pos heq]
        omega
      · rw [if_neg heq, if_pos hadj]
        omega
  by_cases h1 : 0 < (forcePairs (buildHash cellSize bodies)).count (u, v)
  · exact Or.inl (List.count_pos_iff.mp h1)
  · refine Or.inr (List.count_pos_iff.mp ?_)
    omega

/-- Witness for C7 at a concrete input: two unit-mass bodies 500 apart,
cell size 1000. -/
theorem close_pair_is_considered_witness :
    ([⟨0, 1, ⟨0, 0, 0⟩, ⟨0, 0, 0⟩, ⟨0, 0, 0⟩, 1⟩,
      ⟨1, 1, ⟨500, 0, 0⟩, ⟨0, 0, 0⟩, ⟨0, 0, 0⟩, 1⟩] : List Body).get? 0 =
      some ⟨0, 1, ⟨0, 0, 0⟩, ⟨0, 0, 0⟩, ⟨0, 0, 0⟩, 1⟩ ∧
    (0 : ℚ) < 1000 ∧
    MathUtils.distanceSquared (⟨0, 0, 0⟩ : Vec3) ⟨500, 0, 0⟩ < 1000 * 1000 ∧
    ((getCellKey 1000 (⟨0, 0, 0⟩ : Vec3) = getCellKey 1000 (⟨500, 0, 0⟩ : Vec3) ∨
      getCellKey 1000 (⟨500, 0, 0⟩ : Vec3) ∈
        getNeighboringCells (getCellKey 1000 (⟨0, 0, 0⟩ : Vec3))) ∧
    ((0, 1) ∈ forcePairs (buildHash 1000
        [⟨0, 1, ⟨0, 0, 0⟩, ⟨0, 0, 0⟩, ⟨0, 0, 0⟩, 1⟩,
         ⟨1, 1, ⟨500, 0, 0⟩, ⟨0, 0, 0⟩, ⟨0, 0, 0⟩, 1⟩]) ∨
      (1, 0) ∈ forcePairs (buildHash 1000
        [⟨0, 1, ⟨0, 0, 0⟩, ⟨0, 0, 0⟩, ⟨0, 0, 0⟩, 1⟩,
         ⟨1, 1, ⟨500, 0, 0⟩, ⟨0, 0, 0⟩, ⟨0, 0, 0⟩, 1⟩]))) :=
  ⟨rfl, by norm_num, by rw [MathUtils.distanceSquared]; norm_num,
    close_pair_is_considered 1000
      [⟨0, 1, ⟨0, 0, 0⟩, ⟨0, 0, 0⟩, ⟨0, 0, 0⟩, 1⟩,
       ⟨1, 1, ⟨500, 0, 0⟩, ⟨0, 0, 0⟩, ⟨0, 0, 0⟩, 1⟩]
      (show ([⟨0, 1, ⟨0, 0, 0⟩, ⟨0, 0, 0⟩, ⟨0, 0, 0⟩, 1⟩,
        ⟨1, 1, ⟨500, 0, 0⟩, ⟨0, 0, 0⟩, ⟨0, 0, 0⟩, 1⟩] : List Body).get? 0 =
        some ⟨0, 1, ⟨0, 0, 0⟩, ⟨0, 0, 0⟩, ⟨0, 0, 0⟩, 1⟩ from rfl)
      (show ([⟨0, 1, ⟨0, 0, 0⟩, ⟨0, 0, 0⟩, ⟨0, 0, 0⟩, 1⟩,
        ⟨1, 1, ⟨500, 0, 0⟩, ⟨0, 0, 0⟩, ⟨0, 0, 0⟩, 1⟩] : List Body).get? 1 =
        some ⟨1, 1, ⟨500, 0, 0⟩, ⟨0, 0, 0⟩, ⟨0, 0, 0⟩, 1⟩ from rfl)
      (by decide) (by norm_num)
      (by rw [MathUtils.distanceSquared]; norm_num)⟩

/-- C10: confirmed.  When conservation tracking is on and the recorded
baseline is negative (any gravitationally bound configuration), the
stored diagnostic `stats.energyError = |current − baseline| / baseline`
divides a non-negative numerator by the *signed* negative baseline, so it
is at most 0 — not the non-negative quantity an "error" suggests. -/
theorem trackEnergyConservation_nonpos_of_neg_baseline (e : PhysicsEngine)
    (hc : e.energyConservation = true) (hneg : e.initialEnergy < 0) :
    (e.trackEnergyConservation).stats.energyError ≤ 0 := by
  rw [PhysicsEngine.trackEnergyConservation]
  rw [if_neg (by simp [hc]), if_neg hneg.ne]
  exact div_nonpos_iff.mpr (Or.inl ⟨abs_nonneg _, hneg.le⟩)

/-- Witness for C10 at a concrete input: the fresh engine with a recorded
negative baseline `−1`. -/
theorem trackEnergyConservation_nonpos_witness :
    ({ PhysicsEngine.init with initialEnergy := -1 } : PhysicsEngine).energyConservation
        = true ∧
    ({ PhysicsEngine.init with initialEnergy := -1 } : PhysicsEngine).initialEnergy < 0 ∧
    (PhysicsEngine.trackEnergyConservation
        { PhysicsEngine.init with initialEnergy := -1 }).stats.energyError ≤ 0 :=
  ⟨rfl, by norm_num,
    trackEnergyConservation_nonpos_of_neg_baseline
      { PhysicsEngine.init with initialEnergy := -1 } rfl (by norm_num)⟩

end ThreeBody
